import Mathlib

/-
Verification of the dimpy dimensional-analysis engine
(benchmarks/dimpy/{units,flyquant,derived_units,quantity_parser}.py).

Conventions of the shallow embedding:
* Python floats/ints are modelled as rationals (`Scalar := ℚ`).  All numeric
  constants appearing in the claims are exactly representable; IEEE rounding
  is never at issue in any claim, and float `**` with a non-integer exponent
  (whose result is irrational) is mapped to 0 by `fpow` — no claim concerns
  such a value.  Likewise Python's `ZeroDivisionError` is not modelled:
  division is the total division of ℚ (no claim divides by zero except under
  an explicit nonzero hypothesis).
* Python dicts are insertion-ordered association lists with no duplicate
  keys; dict equality is order-insensitive key/value equality (`dictBeq`).
* Exceptions are modelled with `Except`: `DimensionMismatchError`,
  `ParseError`, and Python `TypeError`/`IndexError` (from exhausted
  `NotImplemented` dispatch or out-of-range indexing).
* Mutable objects are modelled by explicit state passing.  For the one
  claim about aliasing (`Flyquant.copy` sharing its `quant` object) a small
  explicit store of Quantity objects is used, see `QStore` below.
-/

namespace DimPy

/-- Python numbers (int and float unified) are modelled as rationals. -/
abbrev Scalar := ℚ

/-- Python float power `x ** y`.  Exact for integer exponents (including the
negative ones produced by `10**-3` etc.); a non-integer exponent would give
an irrational float, which ℚ cannot carry, so it is mapped to 0 — no claim
depends on such a value.  `0 ** -n` (Python `ZeroDivisionError`) is also 0. -/
def fpow (x y : Scalar) : Scalar :=
  if y.den = 1 then x ^ y.num else 0

/-- Rendering of a Python number: integers print without a denominator.
Python float `repr` (e.g. "3.0") is idealised; no claim inspects the digits. -/
def ratStr (x : Scalar) : String :=
  if x.den = 1 then toString x.num else toString x.num ++ "/" ++ toString x.den

/-! ## Dimension (units.py lines 74-191) -/

/-- Embeds `Dimension`: the list of the exponents of the 7 SI base
quantities (`self._dims`).  Exponents start as ints but `__pow__` multiplies
them by an arbitrary scalar, so they are Scalars. -/
structure Dimension where
  dims : List Scalar
deriving Repr, DecidableEq

/-- `Dimension()` with no keywords: the dimensionless 7-zero vector. -/
def dim0 : Dimension := ⟨[0, 0, 0, 0, 0, 0, 0]⟩

/-- Embeds `Dimension.__mul__`: componentwise sum (via `izip`). -/
def dimMul (a b : Dimension) : Dimension :=
  ⟨List.zipWith (fun x y => x + y) a.dims b.dims⟩

/-- Embeds `Dimension.__div__`: componentwise difference. -/
def dimDiv (a b : Dimension) : Dimension :=
  ⟨List.zipWith (fun x y => x - y) a.dims b.dims⟩

/-- Embeds `Dimension.__pow__`: every exponent is multiplied by the scalar. -/
def dimPow (a : Dimension) (v : Scalar) : Dimension :=
  ⟨a.dims.map (fun x => x * v)⟩

/-- Embeds `Dimension.is_dimensionless`: `sum([x==0 for x in self._dims])==7`. -/
def dimIsDimensionless (a : Dimension) : Bool :=
  a.dims.countP (fun x => x == 0) == 7

/-- Embeds `Dimension.__eq__`: `sum([x==y for x,y in izip(...)])==7`. -/
def dimBeq (a b : Dimension) : Bool :=
  (List.zipWith (fun x y => decide (x = y)) a.dims b.dims).count true == 7

/-- Embeds `Dimension.__str__`: `m^2 kg s^-1` style, `"1"` when empty. -/
def dimStr (a : Dimension) : String :=
  let labels : List String := ["m", "kg", "s", "A", "K", "mol", "cd"]
  let s := (List.zip labels a.dims).foldl
    (fun s p =>
      if p.2 == 0 then s
      else s ++ p.1 ++ (if p.2 == 1 then "" else "^" ++ ratStr p.2) ++ " ") ""
  if s.isEmpty then "1" else s.trimRight

/-! ## Association-list model of Python dicts -/

/-- Lookup of the first binding of key `k` (Python `d[k]` / `d.get(k)`). -/
def dictLookup {α : Type} (d : List (String × α)) (k : String) : Option α :=
  (d.find? (fun p => p.1 == k)).map (fun p => p.2)

/-- Python `k in d`. -/
def dictHasKey {α : Type} (d : List (String × α)) (k : String) : Bool :=
  d.any (fun p => p.1 == k)

/-- Python `d[k] = v`: update in place if present, else append (insertion
order preserved, as in a Python dict). -/
def dictSet {α : Type} (d : List (String × α)) (k : String) (v : α) :
    List (String × α) :=
  if dictHasKey d k then
    d.map (fun p => if p.1 == k then (p.1, v) else p)
  else d ++ [(k, v)]

/-- Python `del d[k]`. -/
def dictDel {α : Type} (d : List (String × α)) (k : String) :
    List (String × α) :=
  d.filter (fun p => p.1 != k)

/-- Python dict equality: same keys, same values, order-insensitive. -/
def dictBeq [BEq α] (a b : List (String × α)) : Bool :=
  a.all (fun p => dictLookup b p.1 == some p.2) &&
  b.all (fun p => dictLookup a p.1 == some p.2)

/-- No duplicate keys (every genuine Python dict satisfies this). -/
def dictNodup {α : Type} (d : List (String × α)) : Prop :=
  (d.map (fun p => p.1)).Nodup

/-! ## Flydim (flyquant.py lines 45-178) -/

/-- Embeds `Flydim`: `self.dim` is a dict of flyUnitName:exponent pairs. -/
structure Flydim where
  dim : List (String × Scalar)
deriving Repr, DecidableEq

/-- `Flydim(name)`: one unit of power 1 (`Flydim("")` is empty). -/
def flydimMk (name : String) : Flydim :=
  if name == "" then ⟨[]⟩ else ⟨[(name, 1)]⟩

/-- The last two lines of the `Flydim.__mul__` loop body: write the new
exponent and delete the entry if it became zero. -/
def fdMulStep3 (s : List (String × Scalar)) (k : String) (newv : Scalar) :
    List (String × Scalar) :=
  if newv == 0 then dictDel (dictSet s k newv) k else dictSet s k newv

/-- The `s.dim[k] += v` part of the loop body, after the key exists. -/
def fdMulStep2 (s : List (String × Scalar)) (kv : String × Scalar) :
    List (String × Scalar) :=
  fdMulStep3 s kv.1 ((dictLookup s kv.1).getD 0 + kv.2)

/-- The loop body of `Flydim.__mul__` for one entry `k,v` of `other.dim`:
insert 0 if the key is missing, add `v`, and delete the entry if it became
zero. -/
def fdMulStep (s : List (String × Scalar)) (kv : String × Scalar) :
    List (String × Scalar) :=
  fdMulStep2 (if dictHasKey s kv.1 then s else dictSet s kv.1 0) kv

/-- Embeds `Flydim.__mul__` on two Flydims: the loop over `other.dim`. -/
def fdMul (a b : Flydim) : Flydim :=
  ⟨b.dim.foldl fdMulStep a.dim⟩

/-- Embeds `Flydim.invert`: all powers are multiplied by -1. -/
def fdInvert (a : Flydim) : Flydim :=
  ⟨a.dim.map (fun p => (p.1, p.2 * (-1)))⟩

/-- Embeds `Flydim.__div__` on two Flydims: `self * other.invert()`. -/
def fdDiv (a b : Flydim) : Flydim :=
  fdMul a (fdInvert b)

/-- Embeds the scalar branch of `Flydim.__pow__`:
`s.dim[k] = s.dim[k]*other` for every key — note no zero-pruning here. -/
def fdPow (a : Flydim) (other : Scalar) : Flydim :=
  ⟨a.dim.map (fun p => (p.1, p.2 * other))⟩

/-- Embeds `Flydim.is_dimensionless`: `not len(self.dim)`. -/
def fdIsDimensionless (a : Flydim) : Bool :=
  a.dim.isEmpty

/-- Result type of `Flydim.get_dimensions`: the int `1` when dimensionless,
otherwise the dict itself. -/
inductive FlyDims where
  | one
  | dims (d : List (String × Scalar))
deriving Repr, DecidableEq

/-- Embeds `Flydim.get_dimensions`. -/
def fdGetDimensions (a : Flydim) : FlyDims :=
  if fdIsDimensionless a then .one else .dims a.dim

/-- Python `==` on two `Flydim.get_dimensions` results: `1 == 1` is true,
`1 == dict` is false, and dicts compare by key/value equality. -/
def flyDimsBeq (a b : FlyDims) : Bool :=
  match a, b with
  | .one, .one => true
  | .dims x, .dims y => dictBeq x y
  | _, _ => false

/-- Embeds `Flydim.__str__`. -/
def fdStr (a : Flydim) : String :=
  (a.dim.foldl
    (fun s p =>
      s ++ p.1 ++ (if p.2 == 1 then "" else "^" ++ ratStr p.2) ++ " ")
    "").trimRight

/-- No entry of the exponent dict is zero (the pruning invariant the spec
states for Flydim maps). -/
def fdNoZero (a : Flydim) : Bool :=
  a.dim.all (fun p => p.2 != 0)

/-! ## Quantity and Unit (units.py lines 264-706)

`Unit` subclasses `Quantity` in the source; this is modelled by an optional
`UnitInfo` payload: `sub = none` is a plain `Quantity`, `sub = some i` is a
`Unit` instance (so `isinstance(x, Quantity)` is every `Quantity` and
`isinstance(x, Unit)` is `x.sub.isSome`). -/

/-- The extra state a `Unit` carries: display-name dict, name, compound flag. -/
structure UnitInfo where
  dispname : List (String × Scalar)
  name : String
  iscompound : Bool
deriving Repr, DecidableEq

/-- Embeds `Quantity` (and, when `sub` is set, `Unit`). -/
structure Quantity where
  value : Scalar
  dim : Dimension
  sub : Option UnitInfo
deriving Repr, DecidableEq

/-- `Quantity(value)`: dimensionless plain quantity. -/
def quantityMk (value : Scalar) : Quantity :=
  ⟨value, dim0, none⟩

/-- `Quantity.with_dimensions(value, dim)`: plain quantity with the dims. -/
def withDimensions (value : Scalar) (dim : Dimension) : Quantity :=
  ⟨value, dim, none⟩

/-- Embeds `Quantity.is_dimensionless`. -/
def qIsDimensionless (q : Quantity) : Bool :=
  dimIsDimensionless q.dim

/-- Embeds `Unit.create(dim, name, dname, scalar_multiple)`. -/
def unitCreate (dim : Dimension) (name dname : String) (scalar_multiple : Scalar) :
    Quantity :=
  ⟨scalar_multiple, dim, some ⟨[(dname, 1)], name, false⟩⟩

/-- The dimension-mismatch errors carry the dimensions of the operands;
Flyquant operations store `(properDim, flyDim)` pairs and `Flydim.__pow__`
stores the raw exponent dict, hence this sum. -/
inductive DimRepr where
  | d (dim : Dimension)
  | pair (dim : Dimension) (f : FlyDims)
  | fdict (m : List (String × Scalar))
  | pyNone
deriving Repr, DecidableEq

/-- Embeds `DimensionMismatchError(description, *dims)`. -/
structure DimensionMismatchError where
  desc : String
  dims : List DimRepr
deriving Repr, DecidableEq

/-- The second operand of a binary `Quantity` operation: a `Quantity`
(`isinstance(other, Quantity)`, Units included) or a bare scalar
(`is_scalar_type(other)`). -/
inductive QArg where
  | q (q : Quantity)
  | s (x : Scalar)
deriving Repr, DecidableEq

/-- `get_dimensions(other)` from units.py: a scalar is dimensionless. -/
def qargDim (b : QArg) : Dimension :=
  match b with
  | .q q => q.dim
  | .s _ => dim0

/-- `float(other)`. -/
def qargVal (b : QArg) : Scalar :=
  match b with
  | .q q => q.value
  | .s x => x

/-- Python `other == 0` as it is evaluated inside `Quantity.__add__`:
for a scalar it is plain equality with 0; for a `Quantity` it dispatches to
`Quantity.__eq__(other, 0)`, whose scalar-zero branch returns
`float(other) == 0` without any dimension check. -/
def qargEqZero (b : QArg) : Bool :=
  match b with
  | .q q => q.value == 0
  | .s x => x == 0

/-- Embeds `Quantity.__add__` (units.py lines 442-449): succeed with
`self.dim` when the dimensions match or `other == 0`, else raise. -/
def qadd (a : Quantity) (b : QArg) : Except DimensionMismatchError Quantity :=
  let dim := qargDim b
  if dimBeq dim a.dim || qargEqZero b then
    .ok (withDimensions (a.value + qargVal b) a.dim)
  else
    .error ⟨"Addition", [.d a.dim, .d dim]⟩

/-- Embeds `Quantity.__sub__` (units.py lines 452-459). -/
def qsub (a : Quantity) (b : QArg) : Except DimensionMismatchError Quantity :=
  let dim := qargDim b
  if dimBeq dim a.dim || qargEqZero b then
    .ok (withDimensions (a.value - qargVal b) a.dim)
  else
    .error ⟨"Subtraction", [.d a.dim, .d dim]⟩

/-- Embeds `Quantity.__neg__`: a fresh plain Quantity (no mutation). -/
def qneg (a : Quantity) : Quantity :=
  withDimensions (-a.value) a.dim

/-- Embeds `Quantity.__abs__`. -/
def qabs (a : Quantity) : Quantity :=
  withDimensions |a.value| a.dim

/-! Comparisons (units.py lines 496-567).  Each returns `Except` since all
but `__eq__` raise on a dimension mismatch; the scalar branches first test
`other == 0 or other == 0.` which never raises. -/

/-- Embeds `Quantity.__lt__`. -/
def qlt (a : Quantity) (b : QArg) : Except DimensionMismatchError Bool :=
  match b with
  | .q other =>
    if dimBeq a.dim other.dim then .ok (decide (a.value < other.value))
    else .error ⟨"LessThan", [.d a.dim, .d other.dim]⟩
  | .s x =>
    if x == 0 then .ok (decide (a.value < x))
    else if qIsDimensionless a then .ok (decide (a.value < x))
    else .error ⟨"LessThan", [.d a.dim, .d dim0]⟩

/-- Embeds `Quantity.__le__`. -/
def qle (a : Quantity) (b : QArg) : Except DimensionMismatchError Bool :=
  match b with
  | .q other =>
    if dimBeq a.dim other.dim then .ok (decide (a.value ≤ other.value))
    else .error ⟨"LessThanOrEquals", [.d a.dim, .d other.dim]⟩
  | .s x =>
    if x == 0 then .ok (decide (a.value ≤ x))
    else if qIsDimensionless a then .ok (decide (a.value ≤ x))
    else .error ⟨"LessThanOrEquals", [.d a.dim, .d dim0]⟩

/-- Embeds `Quantity.__gt__`. -/
def qgt (a : Quantity) (b : QArg) : Except DimensionMismatchError Bool :=
  match b with
  | .q other =>
    if dimBeq a.dim other.dim then .ok (decide (a.value > other.value))
    else .error ⟨"GreaterThan", [.d a.dim, .d other.dim]⟩
  | .s x =>
    if x == 0 then .ok (decide (a.value > x))
    else if qIsDimensionless a then .ok (decide (a.value > x))
    else .error ⟨"GreaterThan", [.d a.dim, .d dim0]⟩

/-- Embeds `Quantity.__ge__`. -/
def qge (a : Quantity) (b : QArg) : Except DimensionMismatchError Bool :=
  match b with
  | .q other =>
    if dimBeq a.dim other.dim then .ok (decide (a.value ≥ other.value))
    else .error ⟨"GreaterThanOrEquals", [.d a.dim, .d other.dim]⟩
  | .s x =>
    if x == 0 then .ok (decide (a.value ≥ x))
    else if qIsDimensionless a then .ok (decide (a.value ≥ x))
    else .error ⟨"GreaterThanOrEquals", [.d a.dim, .d dim0]⟩

/-- Embeds `Quantity.__eq__`: on a Quantity with unequal dims it returns
`False` (it does not raise); the scalar branch raises for a nonzero scalar
against a dimensioned quantity. -/
def qeq (a : Quantity) (b : QArg) : Except DimensionMismatchError Bool :=
  match b with
  | .q other =>
    if dimBeq a.dim other.dim then .ok (a.value == other.value)
    else .ok false
  | .s x =>
    if x == 0 then .ok (a.value == x)
    else if dimIsDimensionless a.dim then .ok (a.value == x)
    else .error ⟨"Equals", [.d a.dim, .d dim0]⟩

/-- Embeds `Quantity.__ne__`: note the Quantity branch raises with the
description string "Equals", as in the source. -/
def qne (a : Quantity) (b : QArg) : Except DimensionMismatchError Bool :=
  match b with
  | .q other =>
    if dimBeq a.dim other.dim then .ok (a.value != other.value)
    else .error ⟨"Equals", [.d a.dim, .d other.dim]⟩
  | .s x =>
    if x == 0 then .ok (a.value != x)
    else if dimIsDimensionless a.dim then .ok (a.value != x)
    else .error ⟨"NotEquals", [.d a.dim, .d dim0]⟩

/-! ## Quantity/Unit arithmetic shared by the operator dispatch -/

/-- `Quantity.__mul__` with a scalar: `with_dimensions(float(self)*other, self.dim)`
(also the result of `Unit * scalar`, whose `super()` call produces the same
plain Quantity). -/
def quantMulScalar (a : Quantity) (x : Scalar) : Quantity :=
  withDimensions (a.value * x) a.dim

/-- The copy loop `for key in self.dispname.keys(): u.dispname[key] = ...`
starting from the empty dict of a fresh `Unit`. -/
def dispnameCopy (d : List (String × Scalar)) : List (String × Scalar) :=
  d.foldl (fun acc p => dictSet acc p.1 p.2) []

/-- The merge loop of `Unit.__mul__`: keys already present get
`+= other.dispname[key]`, new keys are inserted. -/
def dispnameMergeAdd (self other : List (String × Scalar)) :
    List (String × Scalar) :=
  other.foldl
    (fun acc p =>
      if dictHasKey acc p.1 then
        dictSet acc p.1 ((dictLookup acc p.1).getD 0 + p.2)
      else dictSet acc p.1 p.2)
    (dispnameCopy self)

/-- The merge loop of `Unit.__div__`: keys already present get
`-= other.dispname[key]`, new keys are inserted negated. -/
def dispnameMergeSub (self other : List (String × Scalar)) :
    List (String × Scalar) :=
  other.foldl
    (fun acc p =>
      if dictHasKey acc p.1 then
        dictSet acc p.1 ((dictLookup acc p.1).getD 0 - p.2)
      else dictSet acc p.1 (-p.2))
    (dispnameCopy self)

/-- Python `a * b` for two Quantity-or-Unit operands.  Two Units take
`Unit.__mul__` (display-name merge, `iscompound = True`); otherwise the
result is the plain Quantity of `Quantity.__mul__` (when only `b` is a
Unit, Python routes through `Unit.__rmul__` to the same plain result). -/
def quantMulQ (a b : Quantity) : Quantity :=
  match a.sub, b.sub with
  | some ia, some ib =>
    ⟨a.value * b.value, dimMul a.dim b.dim,
     some ⟨dispnameMergeAdd ia.dispname ib.dispname, ia.name ++ ib.name, true⟩⟩
  | _, _ => withDimensions (a.value * b.value) (dimMul a.dim b.dim)

/-- Python `a / b` for two Quantity-or-Unit operands (`Unit.__div__` when
both are Units, else the plain `Quantity.__div__`). -/
def quantDivQ (a b : Quantity) : Quantity :=
  match a.sub, b.sub with
  | some ia, some ib =>
    ⟨a.value / b.value, dimDiv a.dim b.dim,
     some ⟨dispnameMergeSub ia.dispname ib.dispname,
           ia.name ++ "inv_" ++ ib.name ++ "_endinv", true⟩⟩
  | _, _ => withDimensions (a.value / b.value) (dimDiv a.dim b.dim)

/-- `Quantity.__rdiv__` with a scalar numerator:
`with_dimensions(other/float(self), [-x for x in self.dim._dims])`. -/
def rdivScalarQ (x : Scalar) (a : Quantity) : Quantity :=
  withDimensions (x / a.value) ⟨a.dim.dims.map (fun t => -t)⟩

/-- Python `a ** n` with a scalar exponent.  A Unit takes `Unit.__pow__`:
fresh Unit whose dispname exponents are scaled — note its `iscompound`
keeps the `False` set by `Unit.__init__`, the method never assigns it.
A plain Quantity takes `Quantity.__pow__`. -/
def quantPowScalar (a : Quantity) (n : Scalar) : Quantity :=
  match a.sub with
  | some ia =>
    ⟨fpow a.value n, dimPow a.dim n,
     some ⟨ia.dispname.map (fun p => (p.1, p.2 * n)),
           ia.name ++ "pow_" ++ ratStr n ++ "_endpow", false⟩⟩
  | none => withDimensions (fpow a.value n) (dimPow a.dim n)

/-! ## Flyquant (flyquant.py lines 180-360) and the Python value universe -/

/-- Embeds `Flyquant`: a fly part and a quant part (which may be a Unit
object, e.g. from `Flydim.__mul__(self, meter)`). -/
structure Flyquant where
  fly : Flydim
  quant : Quantity
deriving Repr, DecidableEq

/-- Embeds `Flyquant.get_dimensions`: the pair (proper dim, fly dims). -/
def fqGetDimensions (f : Flyquant) : Dimension × FlyDims :=
  (f.quant.dim, fdGetDimensions f.fly)

/-- Embeds `Flyquant.is_dimensionless`. -/
def fqIsDimensionless (f : Flyquant) : Bool :=
  qIsDimensionless f.quant && fdIsDimensionless f.fly

/-- Embeds `Flyquant.invert`: `Flyquant(self.fly.invert(), 1/self.quant)`. -/
def fqInvert (f : Flyquant) : Flyquant :=
  ⟨fdInvert f.fly, rdivScalarQ 1 f.quant⟩

/-- The pure image of `Flyquant.__neg__` (the value it hands back).  The
source reaches this value by mutating the `quant` object shared with the
operand; that aliasing effect is modelled separately with `QStore`. -/
def fqNegPure (f : Flyquant) : Flyquant :=
  ⟨f.fly, { f.quant with value := -f.quant.value }⟩

/-- The closed universe of values this code passes around:
plain numbers, Quantities/Units, Flydims and Flyquants. -/
inductive PyVal where
  | num (x : Scalar)
  | quant (q : Quantity)
  | flydim (d : Flydim)
  | flyq (f : Flyquant)
deriving Repr, DecidableEq

/-- Embeds flyquant.py `get_dimensions(obj)`: `none` models the Python
`None` fall-through for a bare Flydim (never consulted by this code). -/
def getDimensionsV (v : PyVal) : Option (Dimension × FlyDims) :=
  match v with
  | .num _ => some (dim0, fdGetDimensions (flydimMk ""))
  | .quant q => some (q.dim, fdGetDimensions (flydimMk ""))
  | .flyq f => some (fqGetDimensions f)
  | .flydim _ => none

/-- Python `==` on two `(properDim, flyDim)` pairs. -/
def pairBeq (a b : Dimension × FlyDims) : Bool :=
  dimBeq a.1 b.1 && flyDimsBeq a.2 b.2

/-- Embeds `flt(obj)`: the bare scalar value (0 for a Flydim, on which the
source would raise; never reached). -/
def fltV (v : PyVal) : Scalar :=
  match v with
  | .num x => x
  | .quant q => q.value
  | .flyq f => f.quant.value
  | .flydim _ => 0

/-- A `DimRepr` for the polymorphic `get_dimensions` of a value, for error
payloads of Flyquant operations. -/
def pairRepr (p : Dimension × FlyDims) : DimRepr :=
  .pair p.1 p.2

/-- The failure modes of this code: grammar errors, dimension mismatches,
Python `TypeError`/`AttributeError` (exhausted operator dispatch or missing
attributes), `IndexError` (string indexing past the end), and exhausted
fuel for the embedded recursion. -/
inductive PErr where
  | parseErr (msg : String)
  | dimErr (e : DimensionMismatchError)
  | typeErr
  | indexErr
  | outOfFuel
deriving Repr, DecidableEq

/-- Embeds `Flyquant.__add__` for the operand kinds its `isinstance` guard
admits (Flyquant, Quantity, scalar).  On matching combined dimensions the
result `a = self*(flt(self)+flt(other))/flt(self)` is collapsed to the
simplest type: number if both parts empty, Quantity if only the fly part is
empty, else Flyquant. -/
def fqAdd (f : Flyquant) (other : PyVal) : Except PErr PyVal :=
  match other with
  | .flydim _ => .error .typeErr
  | _ =>
    match getDimensionsV other with
    | none => .error .typeErr
    | some gd =>
      if pairBeq gd (fqGetDimensions f) then
        let t := fltV (.flyq f) + fltV other
        let a1 : Flyquant := ⟨f.fly, quantMulScalar f.quant t⟩
        let a : Flyquant := ⟨a1.fly, quantMulScalar a1.quant (1 / fltV (.flyq f))⟩
        if flyDimsBeq (fqGetDimensions a).2 (fdGetDimensions (flydimMk "")) then
          if dimBeq (fqGetDimensions a).1 dim0 then .ok (.num a.quant.value)
          else .ok (.quant a.quant)
        else .ok (.flyq a)
      else
        .error (.dimErr ⟨"Addition", [pairRepr (fqGetDimensions f), pairRepr gd]⟩)

/-- Embeds `fly(obj)`: wrap a Quantity or scalar into a Flyquant with an
empty fly part (a Flyquant passes through; a bare Flydim would fall off the
end of the source function and is left unchanged here). -/
def flyV (v : PyVal) : PyVal :=
  match v with
  | .flyq f => .flyq f
  | .quant q => .flyq ⟨flydimMk "", q⟩
  | .num x => .flyq ⟨flydimMk "", quantityMk x⟩
  | .flydim d => .flydim d

/-- Lift a Quantity-level result into the value universe. -/
def liftQ (r : Except DimensionMismatchError Quantity) : Except PErr PyVal :=
  match r with
  | .ok q => .ok (.quant q)
  | .error e => .error (.dimErr e)

/-! ## Python operator dispatch over `PyVal`

Each function follows Python 2 binary dispatch: try the left operand's
slot, on `NotImplemented` the right operand's reflected slot, and a
`TypeError` when both fail.  The case analysis below is the closure of that
protocol over the four value kinds, following the `__mul__`/`__rmul__` etc.
bodies in units.py and flyquant.py. -/

/-- Python `a * b` over the value universe.  Total: every kind pair is
accepted by some slot. -/
def vmul (a b : PyVal) : Except PErr PyVal :=
  match a, b with
  | .num x, .num y => .ok (.num (x * y))
  | .num x, .quant q => .ok (.quant (quantMulScalar q x))
  | .quant q, .num x => .ok (.quant (quantMulScalar q x))
  | .num x, .flydim d => .ok (.flyq ⟨d, quantityMk x⟩)
  | .flydim d, .num x => .ok (.flyq ⟨d, quantityMk x⟩)
  | .num x, .flyq f => .ok (.flyq ⟨f.fly, quantMulScalar f.quant x⟩)
  | .flyq f, .num x => .ok (.flyq ⟨f.fly, quantMulScalar f.quant x⟩)
  | .quant p, .quant q => .ok (.quant (quantMulQ p q))
  | .quant q, .flydim d => .ok (.flyq ⟨d, q⟩)
  | .flydim d, .quant q => .ok (.flyq ⟨d, q⟩)
  | .quant q, .flyq f => .ok (.flyq ⟨f.fly, quantMulQ f.quant q⟩)
  | .flyq f, .quant q => .ok (.flyq ⟨f.fly, quantMulQ f.quant q⟩)
  | .flydim c, .flydim d => .ok (.flydim (fdMul c d))
  | .flydim d, .flyq f => .ok (.flyq ⟨fdMul f.fly d, f.quant⟩)
  | .flyq f, .flydim d => .ok (.flyq ⟨fdMul f.fly d, f.quant⟩)
  | .flyq f, .flyq g => .ok (.flyq ⟨fdMul f.fly g.fly, quantMulQ f.quant g.quant⟩)

/-- Python `a / b` over the value universe (classic division `__div__`).
Division by a zero scalar value is idealised as total ℚ division. -/
def vdiv (a b : PyVal) : Except PErr PyVal :=
  match a, b with
  | .num x, .num y => .ok (.num (x / y))
  | .num x, .quant q => .ok (.quant (rdivScalarQ x q))
  | .quant q, .num x => .ok (.quant (withDimensions (q.value / x) q.dim))
  | .num x, .flydim d => .ok (.flyq ⟨fdInvert d, quantityMk x⟩)
  | .flydim d, .num x => .ok (.flyq ⟨d, quantityMk (1 / x)⟩)
  | .num x, .flyq f => .ok (.flyq ⟨(fqInvert f).fly, quantMulScalar (fqInvert f).quant x⟩)
  | .flyq f, .num x => .ok (.flyq ⟨f.fly, quantMulScalar f.quant (1 / x)⟩)
  | .quant p, .quant q => .ok (.quant (quantDivQ p q))
  | .quant q, .flydim d => .ok (.flyq ⟨fdInvert d, q⟩)
  | .flydim d, .quant q => .ok (.flyq ⟨d, rdivScalarQ 1 q⟩)
  | .quant q, .flyq f => .ok (.flyq ⟨(fqInvert f).fly, quantMulQ (fqInvert f).quant q⟩)
  | .flyq f, .quant q => .ok (.flyq ⟨f.fly, quantMulQ f.quant (rdivScalarQ 1 q)⟩)
  | .flydim c, .flydim d => .ok (.flydim (fdDiv c d))
  | .flyq f, .flydim d => .ok (.flyq ⟨fdMul f.fly (fdInvert d), f.quant⟩)
  | .flydim d, .flyq f => .ok (.flyq ⟨fdMul (fqInvert f).fly d, (fqInvert f).quant⟩)
  | .flyq f, .flyq g =>
    .ok (.flyq ⟨fdMul f.fly (fdInvert g.fly), quantMulQ f.quant (rdivScalarQ 1 g.quant)⟩)

/-- Python `a + b` over the value universe. -/
def vadd (a b : PyVal) : Except PErr PyVal :=
  match a, b with
  | .num x, .num y => .ok (.num (x + y))
  | .num x, .quant q => liftQ (qadd q (.s x))
  | .quant q, .num x => liftQ (qadd q (.s x))
  | .quant p, .quant q => liftQ (qadd p (.q q))
  | .num x, .flyq f => fqAdd f (.num x)
  | .flyq f, .num x => fqAdd f (.num x)
  | .quant q, .flyq f => fqAdd f (.quant q)
  | .flyq f, .quant q => fqAdd f (.quant q)
  | .flyq f, .flyq g => fqAdd f (.flyq g)
  | .flydim _, _ => .error .typeErr
  | _, .flydim _ => .error .typeErr

/-- Python `a - b` over the value universe.  `Flyquant.__sub__` is
`self + other.__neg__()` and `__rsub__` is `other + self.__neg__()`;
`Quantity.__rsub__` (scalar minus quantity) has no zero-value escape. -/
def vsub (a b : PyVal) : Except PErr PyVal :=
  match a, b with
  | .num x, .num y => .ok (.num (x - y))
  | .num x, .quant q =>
    if dimBeq dim0 q.dim then .ok (.quant (withDimensions (x - q.value) q.dim))
    else .error (.dimErr ⟨"Subtraction(R)", [.d q.dim, .d dim0]⟩)
  | .quant q, .num x => liftQ (qsub q (.s x))
  | .quant p, .quant q => liftQ (qsub p (.q q))
  | .flyq f, .num x => fqAdd f (.num (-x))
  | .flyq f, .quant q => fqAdd f (.quant (qneg q))
  | .flyq f, .flyq g => fqAdd f (.flyq (fqNegPure g))
  | .num x, .flyq f => fqAdd (fqNegPure f) (.num x)
  | .quant q, .flyq f => fqAdd (fqNegPure f) (.quant q)
  | .flydim _, _ => .error .typeErr
  | _, .flydim _ => .error .typeErr

/-- Python `a ** b` over the value universe.  Notable source behaviours
embedded faithfully: `Unit ** non-scalar` falls into `super().__mul__`
(a multiplication!); `Flyquant.__pow__` always raises a `TypeError`
because it calls the one-argument `get_dimensions` with two arguments;
`Flydim.__pow__` on a dimensionless Quantity exponent raises a `TypeError`
from the unsupported `s[k]` indexing. -/
def vpow (a b : PyVal) : Except PErr PyVal :=
  match a, b with
  | .num x, .num y => .ok (.num (fpow x y))
  | .quant q, .num n => .ok (.quant (quantPowScalar q n))
  | .num x, .quant q =>
    if qIsDimensionless q then .ok (.quant (quantityMk (fpow x q.value)))
    else .error (.dimErr ⟨"Power(R)", [.d q.dim]⟩)
  | .quant p, .quant q =>
    if p.sub.isSome then
      .ok (.quant (withDimensions (p.value * q.value) (dimMul p.dim q.dim)))
    else if qIsDimensionless q then
      .ok (.quant (withDimensions (fpow p.value q.value) (dimPow p.dim q.value)))
    else .error (.dimErr ⟨"Power", [.d p.dim, .d q.dim]⟩)
  | .flydim d, .num n => .ok (.flydim (fdPow d n))
  | .flydim d, .quant q =>
    if qIsDimensionless q then .error .typeErr
    else .error (.dimErr ⟨"Power", [.fdict d.dim, .d q.dim]⟩)
  | .flydim _, .flyq _ => .error .typeErr
  | .flyq _, .num _ => .error .typeErr
  | .flyq _, .quant _ => .error .typeErr
  | .flyq _, .flyq _ => .error .typeErr
  | .num _, .flyq _ => .error .typeErr
  | .quant _, .flyq _ => .error .typeErr
  | .flydim _, .flydim _ => .error .typeErr
  | .num _, .flydim _ => .error .typeErr
  | .quant _, .flydim _ => .error .typeErr
  | .flyq _, .flydim _ => .error .typeErr

/-- Python unary `-a`. -/
def vneg (a : PyVal) : Except PErr PyVal :=
  match a with
  | .num x => .ok (.num (-x))
  | .quant q => .ok (.quant (qneg q))
  | .flyq f => .ok (.flyq (fqNegPure f))
  | .flydim _ => .error .typeErr

/-- Python unary `+a` (`__pos__` returns self where defined). -/
def vpos (a : PyVal) : Except PErr PyVal :=
  match a with
  | .num x => .ok (.num x)
  | .quant q => .ok (.quant q)
  | .flyq f => .ok (.flyq f)
  | .flydim _ => .error .typeErr

/-- The method call `x.is_dimensionless()` as parse_query performs it on an
arbitrary result value: an `AttributeError` on a plain number. -/
def vIsDimensionlessMethod (v : PyVal) : Except PErr Bool :=
  match v with
  | .num _ => .error .typeErr
  | .quant q => .ok (qIsDimensionless q)
  | .flydim d => .ok (fdIsDimensionless d)
  | .flyq f => .ok (fqIsDimensionless f)

/-! ## Display strings, in_unit, and the unit registries -/

/-- Embeds `Unit.__str__`: the dispname dict rendered as
`sym^exp` tokens, or the raw dimension labels when the dict is empty. -/
def unitStr (u : Quantity) (i : UnitInfo) : String :=
  if i.dispname.isEmpty then dimStr u.dim
  else
    (i.dispname.foldl
      (fun s p =>
        if p.2 == 1 then s ++ p.1 ++ " "
        else s ++ p.1 ++ "^" ++ ratStr p.2 ++ " ")
      "").trimRight

/-- Module-level `have_same_dimensions(obj1, obj2)` on two quantities. -/
def haveSameDimensions (a b : Quantity) : Bool :=
  dimBeq a.dim b.dim

/-- Embeds `Quantity.in_unit(u)` (with `Quantity.use_prefix` left at its
source default `False`): raise unless the dimensions agree, else render
`float(self/u)` followed by the display of `u`. -/
def inUnit (self u : Quantity) : Except DimensionMismatchError String :=
  if !dimBeq self.dim u.dim then
    .error ⟨"Non-matching unit for method in_unit", [.d self.dim, .d u.dim]⟩
  else
    let s := ratStr (self.value / u.value)
    let s :=
      if qIsDimensionless u then s
      else
        s ++ " " ++
          (match u.sub with
           | some i => unitStr u i
           | none => dimStr u.dim)
    .ok s.trim

/-- Embeds `UnitRegistry`: an ordered list of registered units. -/
structure UnitRegistry where
  objs : List Quantity
deriving Repr, DecidableEq

/-- Embeds `UnitRegistry.__getitem__(x)`: filter the registered units to
those sharing x's dimensions (KeyError when none), then return the first
with `0.1 <= abs(float(x/o)) < 100` if any, else the first match. -/
def urGetItem (r : UnitRegistry) (x : Quantity) : Except String Quantity :=
  match r.objs.filter (fun o => haveSameDimensions o x) with
  | [] => .error "Unit not found in registry."
  | m0 :: ms =>
    match (m0 :: ms).filter
        (fun o => decide ((1 : Scalar)/10 ≤ |x.value / o.value|) &&
                  decide (|x.value / o.value| < 100)) with
    | u :: _ => .ok u
    | [] => .ok m0

/-- Embeds `_get_best_unit(x, *regs)` with an explicit nonempty registry
list: a dimensionless x gets `Quantity(1)`; otherwise the first registry
lookup that does not raise KeyError wins, with the synthetic
`Quantity.with_dimensions(1, x.dim)` as the fallback. -/
def getBestUnitRegs (regs : List UnitRegistry) (x : Quantity) : Quantity :=
  if dimBeq x.dim dim0 then quantityMk 1
  else
    match regs.findSome? (fun r => (urGetItem r x).toOption) with
    | some u => u
    | none => withDimensions 1 x.dim

/-- `_get_best_unit(x)` with no explicit registries: recurse on the
standard, user and additional registers in that order. -/
def getBestUnitDefault (std usr add : UnitRegistry) (x : Quantity) : Quantity :=
  getBestUnitRegs [std, usr, add] x

/-- Embeds `Quantity.in_best_unit()` with no explicit registries, against
the given contents of the three process-wide registers. -/
def inBestUnit (std usr add : UnitRegistry) (x : Quantity) :
    Except DimensionMismatchError String :=
  inUnit x (getBestUnitDefault std usr add x)

/-! ## Object store for the Flyquant aliasing behaviour

`Flyquant.copy` is `Flyquant(self.fly, self.quant)`: the new object shares
the `quant` object with the original.  `__neg__`/`__abs__` then assign
`a.quant.value = ...` through that shared reference.  To observe this the
Quantity objects live in an explicit store and a Flyquant holds the address
of its quant. -/

/-- A heap of mutable Quantity objects, addressed by list index. -/
structure QStore where
  cells : List Quantity
deriving Repr, DecidableEq

/-- Read the object at an address. -/
def storeGet (s : QStore) (i : Nat) : Quantity :=
  s.cells.getD i (quantityMk 0)

/-- Overwrite the object at an address. -/
def storeSet (s : QStore) (i : Nat) (q : Quantity) : QStore :=
  ⟨s.cells.set i q⟩

/-- A Flyquant object whose quant part is a reference into a `QStore`. -/
structure FlyquantRef where
  fly : Flydim
  quantAddr : Nat
deriving Repr, DecidableEq

/-- Embeds `Flyquant.copy`: `Flyquant(self.fly, self.quant)` — the quant
reference is shared, not duplicated. -/
def fqCopyRef (a : FlyquantRef) : FlyquantRef :=
  ⟨a.fly, a.quantAddr⟩

/-- Embeds `Flyquant.__neg__`: `a = self.copy(); a.quant.value = -a.quant.value`.
The assignment goes through the shared reference, so it updates the store
cell that the operand also points at. -/
def fqNegRef (s : QStore) (a : FlyquantRef) : FlyquantRef × QStore :=
  let c := fqCopyRef a
  let q := storeGet s c.quantAddr
  (c, storeSet s c.quantAddr { q with value := -q.value })

/-- Embeds `Flyquant.__abs__`: same copy-then-assign pattern with `abs`. -/
def fqAbsRef (s : QStore) (a : FlyquantRef) : FlyquantRef × QStore :=
  let c := fqCopyRef a
  let q := storeGet s c.quantAddr
  (c, storeSet s c.quantAddr { q with value := |q.value| })

/-! ## ParseHistory (quantity_parser.py lines 638-677) -/

/-- Embeds `ParseHistory`: the bounded log of raw input strings plus the
user-defined variable dict. -/
structure ParseHistory where
  history : List String
  defined_variables : List (String × PyVal)
deriving Repr, DecidableEq

/-- A fresh session history. -/
def emptyHistory : ParseHistory :=
  ⟨[], []⟩

/-- Embeds `ParseHistory.add`: append, then evict the oldest entry when the
length exceeds 200. -/
def histAdd (s : String) (h : ParseHistory) : ParseHistory :=
  let l := h.history ++ [s]
  ⟨if l.length > 200 then l.tail else l, h.defined_variables⟩

/-- Embeds `ParseHistory.length`. -/
def histLength (h : ParseHistory) : Nat :=
  h.history.length

/-- Embeds `ParseHistory.read(pos)`: a ParseError when `pos` is outside
`[0, length)`. -/
def histRead (h : ParseHistory) (pos : Nat) : Except PErr String :=
  if pos < h.history.length then .ok (h.history.getD pos "")
  else
    .error (.parseErr
      ("History retrieval out of range.  The valid range is 0-" ++
       toString (h.history.length - 1)))

/-- Embeds `ParseHistory.copy`: in the source this allocates fresh
containers (`self.history + []`, `defined_variables.copy()`); on pure
values the copy coincides with the original, and the nested parse of a
back-reference operates on this copy only. -/
def histCopy (h : ParseHistory) : ParseHistory :=
  ⟨h.history ++ [], h.defined_variables⟩

/-- A sequence of `add` calls (left to right). -/
def histAddAll (l : List String) (h : ParseHistory) : ParseHistory :=
  l.foldl (fun h s => histAdd s h) h

/-! ## The unit tables (units.py lines 708-754, derived_units.py)

Fundamental and SI-derived units are `Unit.create` rows; the conversion
units of derived_units.py are built by `dimensionless(value)*unit` followed
by resetting dispname/name/iscompound, which yields exactly a `unitCreate`
with the accumulated scale and the dimension of the defining expression.
The scales below are those products written out (all are exact rationals;
`amu` and `eV` use the source's literal `x**-n`, a power, not `x*10**-n`). -/

def metre : Quantity := unitCreate ⟨[1, 0, 0, 0, 0, 0, 0]⟩ "metre" "m" 1
def meter : Quantity := unitCreate ⟨[1, 0, 0, 0, 0, 0, 0]⟩ "meter" "m" 1
def kilogram : Quantity := unitCreate ⟨[0, 1, 0, 0, 0, 0, 0]⟩ "kilogram" "kg" 1
def second : Quantity := unitCreate ⟨[0, 0, 1, 0, 0, 0, 0]⟩ "second" "s" 1
def amp : Quantity := unitCreate ⟨[0, 0, 0, 1, 0, 0, 0]⟩ "amp" "A" 1
def kelvin : Quantity := unitCreate ⟨[0, 0, 0, 0, 1, 0, 0]⟩ "kelvin" "K" 1
def mole : Quantity := unitCreate ⟨[0, 0, 0, 0, 0, 1, 0]⟩ "mole" "mol" 1
def candela : Quantity := unitCreate ⟨[0, 0, 0, 0, 0, 0, 1]⟩ "candela" "cd" 1

def radian : Quantity := unitCreate dim0 "radian" "rad" 1
def steradian : Quantity := unitCreate dim0 "steradian" "sr" 1
def hertz : Quantity := unitCreate ⟨[0, 0, -1, 0, 0, 0, 0]⟩ "hertz" "Hz" 1
def newton : Quantity := unitCreate ⟨[1, 1, -2, 0, 0, 0, 0]⟩ "newton" "N" 1
def pascal : Quantity := unitCreate ⟨[-1, 1, -2, 0, 0, 0, 0]⟩ "pascal" "Pa" 1
def joule : Quantity := unitCreate ⟨[2, 1, -2, 0, 0, 0, 0]⟩ "joule" "J" 1
def watt : Quantity := unitCreate ⟨[2, 1, -3, 0, 0, 0, 0]⟩ "watt" "W" 1
def coulomb : Quantity := unitCreate ⟨[0, 0, 1, 1, 0, 0, 0]⟩ "coulomb" "C" 1
def volt : Quantity := unitCreate ⟨[2, 1, -3, -1, 0, 0, 0]⟩ "volt" "V" 1
def farad : Quantity := unitCreate ⟨[-2, -1, 4, 2, 0, 0, 0]⟩ "farad" "F" 1
def ohm : Quantity := unitCreate ⟨[2, 1, -3, -2, 0, 0, 0]⟩ "ohm" "ohm" 1
def siemens : Quantity := unitCreate ⟨[-2, -1, 3, 2, 0, 0, 0]⟩ "siemens" "S" 1
def weber : Quantity := unitCreate ⟨[2, 1, -2, -1, 0, 0, 0]⟩ "weber" "Wb" 1
def tesla : Quantity := unitCreate ⟨[0, 1, -2, -1, 0, 0, 0]⟩ "tesla" "T" 1
def henry : Quantity := unitCreate ⟨[2, 1, -2, -2, 0, 0, 0]⟩ "henry" "H" 1
def celsius : Quantity := unitCreate ⟨[0, 0, 0, 0, 1, 0, 0]⟩ "celsius" "degC" 1
def lumen : Quantity := unitCreate ⟨[0, 0, 0, 0, 0, 0, 1]⟩ "lumen" "lm" 1
def lux : Quantity := unitCreate ⟨[-2, 0, 0, 0, 0, 0, 1]⟩ "lux" "lx" 1
def becquerel : Quantity := unitCreate ⟨[0, 0, -1, 0, 0, 0, 0]⟩ "becquerel" "Bq" 1
def gray : Quantity := unitCreate ⟨[2, 0, -2, 0, 0, 0, 0]⟩ "gray" "Gy" 1
def sievert : Quantity := unitCreate ⟨[2, 0, -2, 0, 0, 0, 0]⟩ "sievert" "Sv" 1
def katal : Quantity := unitCreate ⟨[0, 0, -1, 0, 0, 1, 0]⟩ "katal" "kat" 1

def minute : Quantity := unitCreate ⟨[0, 0, 1, 0, 0, 0, 0]⟩ "minute" "min" 60
def hour : Quantity := unitCreate ⟨[0, 0, 1, 0, 0, 0, 0]⟩ "hour" "hr" 3600
def day : Quantity := unitCreate ⟨[0, 0, 1, 0, 0, 0, 0]⟩ "day" "day" 86400
def week : Quantity := unitCreate ⟨[0, 0, 1, 0, 0, 0, 0]⟩ "week" "wk" 604800
def fortnight : Quantity :=
  unitCreate ⟨[0, 0, 1, 0, 0, 0, 0]⟩ "fortnight" "forghtnight" 1209600
def month : Quantity := unitCreate ⟨[0, 0, 1, 0, 0, 0, 0]⟩ "month" "month" 2592000
def year : Quantity := unitCreate ⟨[0, 0, 1, 0, 0, 0, 0]⟩ "year" "yr" 31557600
def mile : Quantity :=
  unitCreate ⟨[1, 0, 0, 0, 0, 0, 0]⟩ "mile" "mi" (1609344/1000)
def kilometer : Quantity := unitCreate ⟨[1, 0, 0, 0, 0, 0, 0]⟩ "kilometer" "km" 1000
def nmile : Quantity := unitCreate ⟨[1, 0, 0, 0, 0, 0, 0]⟩ "nmile" "nmi" 1852
def inch : Quantity := unitCreate ⟨[1, 0, 0, 0, 0, 0, 0]⟩ "inch" "inch" (254/10000)
def inche : Quantity := unitCreate ⟨[1, 0, 0, 0, 0, 0, 0]⟩ "inche" "inch" (254/10000)
def foot : Quantity := unitCreate ⟨[1, 0, 0, 0, 0, 0, 0]⟩ "foot" "ft" (3048/10000)
def feet : Quantity := unitCreate ⟨[1, 0, 0, 0, 0, 0, 0]⟩ "feet" "ft" (3048/10000)
def yard : Quantity := unitCreate ⟨[1, 0, 0, 0, 0, 0, 0]⟩ "yard" "yd" (9144/10000)
def fathom : Quantity :=
  unitCreate ⟨[1, 0, 0, 0, 0, 0, 0]⟩ "fathom" "fathom" (18288/10000)
def AU : Quantity := unitCreate ⟨[1, 0, 0, 0, 0, 0, 0]⟩ "AU" "AU" 149600000000
def angstrom : Quantity :=
  unitCreate ⟨[1, 0, 0, 0, 0, 0, 0]⟩ "angstrom" "angstrom" (1/10000000000)
def furlong : Quantity :=
  unitCreate ⟨[1, 0, 0, 0, 0, 0, 0]⟩ "furlong" "furlong" (201168/1000)
def litre : Quantity := unitCreate ⟨[3, 0, 0, 0, 0, 0, 0]⟩ "litre" "l" (1/1000)
def gallon : Quantity :=
  unitCreate ⟨[3, 0, 0, 0, 0, 0, 0]⟩ "gallon" "gallon" (454609/100000000)
def impGal : Quantity :=
  unitCreate ⟨[3, 0, 0, 0, 0, 0, 0]⟩ "impGal" "ImpGal" (454609/100000000)
def usGal : Quantity :=
  unitCreate ⟨[3, 0, 0, 0, 0, 0, 0]⟩ "usGal" "USGal" (3785411784/1000000000000)
def impFlOz : Quantity :=
  unitCreate ⟨[3, 0, 0, 0, 0, 0, 0]⟩ "impFlOz" "ImpFlOz" (454609/16000000000)
def usFlOz : Quantity :=
  unitCreate ⟨[3, 0, 0, 0, 0, 0, 0]⟩ "usFlOz" "usFlOz" (3785411784/128000000000000)
def barrel : Quantity :=
  unitCreate ⟨[3, 0, 0, 0, 0, 0, 0]⟩ "barrel" "barrel" (117347765/1000000000)
def pint : Quantity :=
  unitCreate ⟨[3, 0, 0, 0, 0, 0, 0]⟩ "pint" "pint" (56826125/100000000000)
def kilogramme : Quantity := unitCreate ⟨[0, 1, 0, 0, 0, 0, 0]⟩ "kilogramme" "kg" 1
def gram : Quantity := unitCreate ⟨[0, 1, 0, 0, 0, 0, 0]⟩ "gram" "g" (1/1000)
def gramme : Quantity := unitCreate ⟨[0, 1, 0, 0, 0, 0, 0]⟩ "gramme" "g" (1/1000)
def ton : Quantity := unitCreate ⟨[0, 1, 0, 0, 0, 0, 0]⟩ "ton" "T" 1000
def tonne : Quantity := unitCreate ⟨[0, 1, 0, 0, 0, 0, 0]⟩ "tonne" "T" 1000
def amu : Quantity :=
  unitCreate ⟨[0, 1, 0, 0, 0, 0, 0]⟩ "amu" "amu" ((166054/100000 : Scalar) ^ (-27 : ℤ))
def pound : Quantity :=
  unitCreate ⟨[0, 1, 0, 0, 0, 0, 0]⟩ "pound" "lb" (45359237/100000000)
def ounce : Quantity :=
  unitCreate ⟨[0, 1, 0, 0, 0, 0, 0]⟩ "ounce" "oz" (283495231/10000000000)
def m0 : Quantity :=
  unitCreate ⟨[0, 1, 0, 0, 0, 0, 0]⟩ "m0" "M_0" 1988920000000000000000000000000
def mp : Quantity :=
  unitCreate ⟨[0, 1, 0, 0, 0, 0, 0]⟩ "mp" "m_p" (217645/10000000000000)
def eV : Quantity :=
  unitCreate ⟨[2, 1, -2, 0, 0, 0, 0]⟩ "eV" "eV" ((160218/100000 : Scalar) ^ (-19 : ℤ))
def knot : Quantity := unitCreate ⟨[1, 0, -1, 0, 0, 0, 0]⟩ "knot" "knot" (1852/3600)
def acre : Quantity :=
  unitCreate ⟨[2, 0, 0, 0, 0, 0, 0]⟩ "acre" "acre" (40468564224/10000000)
def bar : Quantity := unitCreate ⟨[-1, 1, -2, 0, 0, 0, 0]⟩ "bar" "bar" 100000
def kWh : Quantity := unitCreate ⟨[2, 1, -2, 0, 0, 0, 0]⟩ "kWh" "kWh" 3600000
def Wh : Quantity := unitCreate ⟨[2, 1, -2, 0, 0, 0, 0]⟩ "Wh" "Wh" 3600
def erg : Quantity := unitCreate ⟨[2, 1, -2, 0, 0, 0, 0]⟩ "erg" "erg" (1/10000000)
def hectare : Quantity := unitCreate ⟨[2, 0, 0, 0, 0, 0, 0]⟩ "hectare" "ha" 10000

/-- `fundamental_units` (note: the `ampare` alias is not a list member). -/
def fundamental_units : List Quantity :=
  [metre, meter, kilogram, second, amp, kelvin, mole, candela]

/-- `base_units`: fundamental plus the derived_unit_table rows, in order. -/
def base_units : List Quantity :=
  fundamental_units ++
  [radian, steradian, hertz, newton, pascal, joule, watt, coulomb, volt,
   farad, ohm, siemens, weber, tesla, henry, celsius, lumen, lux, becquerel,
   gray, sievert, katal]

/-- The conversion units of derived_units.py, in table order. -/
def conv_unit_list : List Quantity :=
  [minute, hour, day, week, fortnight, month, year, mile, kilometer, nmile,
   inch, inche, foot, feet, yard, fathom, AU, angstrom, furlong, litre,
   gallon, impGal, usGal, impFlOz, usFlOz, barrel, pint, kilogramme, gram,
   gramme, ton, tonne, amu, pound, ounce, m0, mp, eV, knot, acre, bar, kWh,
   Wh, erg, hectare]

/-- The `name` attribute of a unit object. -/
def unitName (u : Quantity) : String :=
  match u.sub with
  | some i => i.name
  | none => ""

/-- `str(u)` of a unit object (used as the key of UNIT_SYMBOLS). -/
def unitStrOf (u : Quantity) : String :=
  match u.sub with
  | some i => unitStr u i
  | none => ""

/-- `Quantity.all_unit_names` after derived_units has run: the base unit
names followed by the conversion unit names. -/
def all_registered_unit_objs : List Quantity :=
  base_units ++ conv_unit_list

/-- `QuantityParser.ALL_UNITS`: dict from unit name to the unit object. -/
def ALL_UNITS : List (String × PyVal) :=
  all_registered_unit_objs.foldl
    (fun m u => dictSet m (unitName u) (.quant u)) []

/-- `QuantityParser.UNIT_SYMBOLS`: dict from `str(unit)` to the unit name;
later entries overwrite earlier ones exactly as in the build loop. -/
def UNIT_SYMBOLS : List (String × String) :=
  all_registered_unit_objs.foldl
    (fun m u => dictSet m (unitStrOf u) (unitName u)) []

/-- The standard register holds the base units (map at units.py line 819). -/
def standard_unit_register : UnitRegistry := ⟨base_units⟩

/-- The user register starts empty. -/
def user_unit_register : UnitRegistry := ⟨[]⟩

/-- The additional register starts empty. -/
def additional_unit_register : UnitRegistry := ⟨[]⟩

/-- `str(q)` of a Quantity-or-Unit object: a Unit prints its dispname, a
plain Quantity prints via `in_best_unit` against the default registers. -/
def quantStr (q : Quantity) : Except DimensionMismatchError String :=
  match q.sub with
  | some i => .ok (unitStr q i)
  | none =>
    inBestUnit standard_unit_register user_unit_register additional_unit_register q

/-- `str(v)` over the whole value universe. -/
def pyStrE (v : PyVal) : Except PErr String :=
  match v with
  | .num x => .ok (ratStr x)
  | .quant q => Except.mapError PErr.dimErr (quantStr q)
  | .flydim d => .ok (fdStr d)
  | .flyq f =>
    match quantStr f.quant with
    | .ok s => .ok ((s ++ " " ++ fdStr f.fly).trim)
    | .error e => .error (.dimErr e)

/-- `QuantityParser.WORD_NUMBERS`. -/
def WORD_NUMBERS : List (String × PyVal) :=
  [("one", .num 1), ("two", .num 2), ("three", .num 3), ("four", .num 4),
   ("five", .num 5), ("six", .num 6), ("seven", .num 7), ("eight", .num 8),
   ("nine", .num 9), ("ten", .num 10), ("hundred", .num 100),
   ("thousand", .num 1000), ("million", .num 1000000),
   ("billion", .num 1000000000), ("trillion", .num 1000000000000)]

/-- `QuantityParser.SI_PREFIXES` in source order (a CPython dict iterates
in an unspecified but fixed order; the claims do not depend on it). -/
def SI_PREFIXES : List (String × Scalar) :=
  [("yocto", (10 : Scalar) ^ (-24 : ℤ)), ("zepto", (10 : Scalar) ^ (-21 : ℤ)),
   ("atto", (10 : Scalar) ^ (-18 : ℤ)), ("femto", (10 : Scalar) ^ (-15 : ℤ)),
   ("pico", (10 : Scalar) ^ (-12 : ℤ)), ("nano", (10 : Scalar) ^ (-9 : ℤ)),
   ("micro", (10 : Scalar) ^ (-6 : ℤ)), ("milli", (10 : Scalar) ^ (-3 : ℤ)),
   ("centi", (10 : Scalar) ^ (-2 : ℤ)), ("deci", (10 : Scalar) ^ (-1 : ℤ)),
   ("hecto", 100), ("kilo", 1000), ("mega", 1000000), ("giga", 1000000000),
   ("tera", 1000000000000), ("peta", 1000000000000000),
   ("exa", 1000000000000000000), ("zetta", 1000000000000000000000),
   ("yotta", 1000000000000000000000000)]

/-- `QuantityParser.SI_PREFIXES_SHORT` in source order. -/
def SI_PREFIXES_SHORT : List (String × Scalar) :=
  [("y", (10 : Scalar) ^ (-24 : ℤ)), ("z", (10 : Scalar) ^ (-21 : ℤ)),
   ("a", (10 : Scalar) ^ (-18 : ℤ)), ("f", (10 : Scalar) ^ (-15 : ℤ)),
   ("p", (10 : Scalar) ^ (-12 : ℤ)), ("n", (10 : Scalar) ^ (-9 : ℤ)),
   ("u", (10 : Scalar) ^ (-6 : ℤ)), ("m", (10 : Scalar) ^ (-3 : ℤ)),
   ("c", (10 : Scalar) ^ (-2 : ℤ)), ("d", (10 : Scalar) ^ (-1 : ℤ)),
   ("h", 100), ("k", 1000), ("M", 1000000), ("G", 1000000000),
   ("T", 1000000000000), ("P", 1000000000000000),
   ("E", 1000000000000000000), ("Z", 1000000000000000000000),
   ("Y", 1000000000000000000000000)]

/-! ## QuantityParser (quantity_parser.py lines 36-636)

The parser object is a mutable cursor over the input string plus an
accumulated echo string and the session fly-variable dict; it is threaded
explicitly as `PState`.  `self.history` is only read by the subparsers
(`parse_word` consults `defined_variables`, `parse_powterm` reads and
copies it); the only writers are `parse` (`history.add`) and `parse_query`
(`defined_variables[name] = ...`), which return the updated history.
String literals below drop the quote marks that appear inside some source
messages; no claim inspects message text.  Python `str()` of numbers is
rendered by `ratStr` (exact for integers). -/

/-- The operator tokens `TOK_*` (integers in the source). -/
inductive Tok where
  | plus
  | minus
  | star
  | slash
  | caret
  | tokIn
  | equ
deriving Repr, DecidableEq, BEq

/-- The constructor flags of `QuantityParser.__init__`. -/
structure PConfig where
  html : Bool
  on_the_fly : Bool
  false_requests : Bool
deriving Repr, DecidableEq

/-- `QuantityParser()` defaults. -/
def defaultConfig : PConfig :=
  ⟨false, true, false⟩

/-- The mutable parser fields: `self.string` (as chars, indexed like the
Python string), `self.pos`, `self.output_string`, `self.fly_variables`. -/
structure PState where
  string : List Char
  pos : Nat
  output_string : String
  fly_variables : List (String × PyVal)
deriving Repr, DecidableEq

/-- `self.string[self.pos]` with Python IndexError semantics. -/
def charAt (st : PState) : Except PErr Char :=
  if st.pos < st.string.length then .ok (st.string.getD st.pos ' ')
  else .error .indexErr

/-- Membership of a char in the whitespace set of `skip_whitespace`. -/
def isWs (c : Char) : Bool :=
  c == ' ' || c == '\t' || c == '\r' || c == '\n'

/-- The loop of `skip_whitespace`, on the fuel of remaining characters. -/
def skipWsAux : Nat → PState → PState
  | 0, st => st
  | n + 1, st =>
    if st.pos < st.string.length && isWs (st.string.getD st.pos ' ') then
      skipWsAux n { st with pos := st.pos + 1 }
    else st

/-- Embeds `skip_whitespace`. -/
def skipWhitespace (st : PState) : PState :=
  skipWsAux (st.string.length - st.pos) st

/-- Embeds `parse_query_op(increment)`: recognise `=` and the private `%`
conversion token. -/
def parseQueryOp (increment : Bool) (st : PState) : Except PErr (Tok × PState) :=
  if st.pos ≥ st.string.length then
    .error (.parseErr ("Query operator expected at position " ++ toString st.pos))
  else if st.string.getD st.pos ' ' == '=' then
    .ok (.equ, if increment then { st with pos := st.pos + 1 } else st)
  else if st.string.getD st.pos ' ' == '%' then
    .ok (.tokIn, if increment then { st with pos := st.pos + 1 } else st)
  else
    .error (.parseErr ("Query operator expected at position " ++ toString st.pos))

/-- Embeds `check_query_op` (its `skip_whitespace` advances the cursor). -/
def checkQueryOp (st : PState) : Bool × PState :=
  let st := skipWhitespace st
  match parseQueryOp false st with
  | .ok _ => (true, st)
  | .error _ => (false, st)

/-- Embeds `parse_operator(increment, add_to_string)`.  As in the source,
the second flag is accepted but never consulted: the echo string is
appended to exactly when `increment` is set. -/
def parseOperator (increment _add_to_string : Bool) (st : PState) :
    Except PErr (Tok × PState) :=
  if st.pos ≥ st.string.length then
    .error (.parseErr ("Operator expected at position " ++ toString st.pos))
  else
    let c := st.string.getD st.pos ' '
    if c == '*' && st.pos + 1 < st.string.length &&
        st.string.getD (st.pos + 1) ' ' == '*' then
      if increment then
        .ok (.caret, { st with pos := st.pos + 2,
                               output_string := st.output_string ++ "^" })
      else .ok (.caret, st)
    else
      let op? : Option Tok :=
        if c == '+' then some .plus
        else if c == '-' then some .minus
        else if c == '*' then some .star
        else if c == '/' then some .slash
        else if c == '^' then some .caret
        else none
      match op? with
      | none =>
        .error (.parseErr ("Operator expected at position " ++ toString st.pos))
      | some op =>
        if increment then
          .ok (op, { st with pos := st.pos + 1,
                             output_string := st.output_string ++ c.toString })
        else .ok (op, st)

/-- Embeds `check_plus`. -/
def checkPlus (st : PState) : Bool × PState :=
  let st := skipWhitespace st
  match parseOperator false true st with
  | .ok (op, _) => (op == .plus || op == .minus, st)
  | .error _ => (false, st)

/-- Embeds `check_times`. -/
def checkTimes (st : PState) : Bool × PState :=
  let st := skipWhitespace st
  match parseOperator false true st with
  | .ok (op, _) => (op == .star || op == .slash, st)
  | .error _ => (false, st)

/-- Embeds `check_power`. -/
def checkPower (st : PState) : Bool × PState :=
  let st := skipWhitespace st
  match parseOperator false true st with
  | .ok (op, _) => (op == .caret, st)
  | .error _ => (false, st)

/-- Embeds `check_alpha`. -/
def checkAlpha (st : PState) : Bool × PState :=
  let st := skipWhitespace st
  (decide (st.pos < st.string.length) && (st.string.getD st.pos ' ').isAlpha, st)

/-- Embeds `check_number`. -/
def checkNumber (st : PState) : Bool × PState :=
  let st := skipWhitespace st
  (decide (st.pos < st.string.length) &&
    ((st.string.getD st.pos ' ').isDigit || st.string.getD st.pos ' ' == '.'), st)

/-- The digit-consuming loop of `parse_integer`. -/
def digitsAux : Nat → PState → Nat → Nat × PState
  | 0, st, acc => (acc, st)
  | n + 1, st, acc =>
    let c := st.string.getD st.pos ' '
    if st.pos < st.string.length && '0' ≤ c && c ≤ '9' then
      digitsAux n { st with pos := st.pos + 1 } (acc * 10 + (c.toNat - '0'.toNat))
    else (acc, st)

/-- Embeds `parse_integer`. -/
def parseInteger (st : PState) : Except PErr (Nat × PState) :=
  if st.pos ≥ st.string.length || st.string.getD st.pos ' ' < '0' ||
      st.string.getD st.pos ' ' > '9' then
    .error (.parseErr ("Integer expected at position " ++ toString st.pos))
  else
    .ok (digitsAux (st.string.length - st.pos) st 0)

/-- The `counter` loop of `parse_number`: the least power of ten (starting
at 10) that is `>= temp` under the source's `while counter < temp`. -/
def decCounterGo : Nat → Nat → Nat → Nat
  | 0, _, c => c
  | f + 1, temp, c => if c < temp then decCounterGo f temp (c * 10) else c

/-- `counter` after the loop of `parse_number`. -/
def decCounter (temp : Nat) : Nat :=
  decCounterGo temp temp 10

/-- The decimal-part step of `parse_number`: consume `.digits` and return
`(flag, decimal_part, state)`; raises when no digit follows the point. -/
def parseNumberDecimal (st : PState) : Except PErr (Bool × Scalar × PState) :=
  if st.string.getD st.pos ' ' == '.' then
    let st1 : PState := { st with pos := st.pos + 1 }
    if st1.pos ≥ st1.string.length then .error .indexErr
    else if !(st1.string.getD st1.pos ' ').isDigit then
      .error (.parseErr
        ("expected digit after decimal point at position " ++ toString st1.pos))
    else
      match parseInteger st1 with
      | .error e => .error e
      | .ok (temp, st2) =>
        .ok (true, (temp : Scalar) / (decCounter temp : Scalar), st2)
  else .ok (false, 0, st)

/-- The exponent step of `parse_number`: consume `[eE][+-]?digits` if
present and return the signed power (a missing sign behaves like `+`, as
`False == TOK_PLUS` does in Python). -/
def parseNumberExponent (st : PState) : Except PErr (Int × PState) :=
  if st.string.getD st.pos ' ' == 'e' || st.string.getD st.pos ' ' == 'E' then
    let st1 : PState := { st with pos := st.pos + 1 }
    let (hasSign, st2) := checkPlus st1
    if hasSign then
      match parseOperator true true st2 with
      | .error e => .error e
      | .ok (op, st3) =>
        match parseInteger st3 with
        | .error e => .error e
        | .ok (p, st4) =>
          if op == .minus then .ok (-(p : Int), st4) else .ok ((p : Int), st4)
    else
      match parseInteger st2 with
      | .error e => .error e
      | .ok (p, st3) => .ok ((p : Int), st3)
  else .ok (0, st)

/-- Embeds `parse_number(add_to_string)`, returning the scalar value.
Notable source behaviours kept: a decimal part is divided by the least
power of ten `>= temp` (so `3.10` parses as `4.0`), and the two early
returns when the input ends right after the integer or decimal part. -/
def parseNumber (addToString : Bool) (st : PState) :
    Except PErr (Scalar × PState) :=
  match charAt st with
  | .error e => .error e
  | .ok c0 =>
    let intRes : Except PErr (Nat × PState) :=
      if c0 == '.' then .ok (0, st) else parseInteger st
    match intRes with
    | .error e => .error e
    | .ok (integerPart, st1) =>
      if st1.pos == st1.string.length then
        let st1 := if addToString then
          { st1 with output_string := st1.output_string ++ toString integerPart }
          else st1
        .ok ((integerPart : Scalar), st1)
      else
        match parseNumberDecimal st1 with
        | .error e => .error e
        | .ok (flagDecimal, decimalPart, st2) =>
          if st2.pos == st2.string.length then
            let v : Scalar := (integerPart : Scalar) + decimalPart
            let st2 := if addToString then
              { st2 with output_string := st2.output_string ++ ratStr v }
              else st2
            .ok (v, st2)
          else
            match parseNumberExponent st2 with
            | .error e => .error e
            | .ok (powerPart, st3) =>
              let base : Scalar :=
                if flagDecimal then (integerPart : Scalar) + decimalPart
                else (integerPart : Scalar)
              let st4 :=
                if addToString then
                  let stA := { st3 with
                    output_string := st3.output_string ++ ratStr base }
                  if powerPart ≠ 0 then
                    { stA with output_string :=
                        stA.output_string ++ "*10^" ++ toString powerPart }
                  else stA
                else st3
              .ok (base * (10 : Scalar) ^ powerPart, st4)

/-- Python `scale * v` for the prefix resolution of `parse_word` (a scalar
times any value kind: always succeeds, see `vmul`). -/
def numMulV (x : Scalar) (v : PyVal) : PyVal :=
  match v with
  | .num y => .num (x * y)
  | .quant q => .quant (quantMulScalar q x)
  | .flydim d => .flyq ⟨d, quantityMk x⟩
  | .flyq f => .flyq ⟨f.fly, quantMulScalar f.quant x⟩

/-- The `imperial` display dict of `parse_word`. -/
def imperialDisp : List (String × String) :=
  [("impGal", "(Imperial gallon)"), ("usGal", "(US gallon)"),
   ("impFlOz", "(Imperial fluid ounce)"), ("usFlOz", "(US fluid ounce)")]

/-- Python `dict.update`: entries of `b` override those of `a`. -/
def dictUpdate {α : Type} (a b : List (String × α)) : List (String × α) :=
  b.foldl (fun m p => dictSet m p.1 p.2) a

/-- `self.dict` as rebuilt at every `parse_word` call: ALL_UNITS, then
WORD_NUMBERS, then the session fly variables, then the defined variables
(later updates take precedence). -/
def parserDict (flyVars dv : List (String × PyVal)) : List (String × PyVal) :=
  dictUpdate (dictUpdate (dictUpdate ALL_UNITS WORD_NUMBERS) flyVars) dv

/-- The word-consuming loop of `parse_word` (letters and underscores). -/
def wordAux : Nat → PState → String → String × PState
  | 0, st, acc => (acc, st)
  | n + 1, st, acc =>
    let c := st.string.getD st.pos ' '
    if st.pos < st.string.length && (c.isAlpha || c == '_') then
      wordAux n { st with pos := st.pos + 1 } (acc ++ c.toString)
    else (acc, st)

/-- One iteration of the long-form prefix loop of `parse_word` (lines
518-535; the imperial test after the unconditional return on line 533 is
dead code and has no image here). -/
def tryOnePrefix (cfg : PConfig) (dict : List (String × PyVal))
    (flyVars : List (String × PyVal)) (word : String) (kv : String × Scalar) :
    Option (PyVal × String) :=
  let key := kv.1
  let scale := kv.2
  let rest := word.drop key.length
  let restS := rest.dropRight 1
  if word.startsWith key && dictHasKey UNIT_SYMBOLS rest then
    match dictLookup UNIT_SYMBOLS rest with
    | some nm =>
      match dictLookup ALL_UNITS nm with
      | some v => some (numMulV scale v, ratStr scale ++ "*" ++ nm)
      | none => none
    | none => none
  else if dictHasKey imperialDisp rest then
    match dictLookup dict rest, dictLookup imperialDisp rest with
    | some v, some disp => some (numMulV scale v, ratStr scale ++ "*" ++ disp)
    | _, _ => none
  else if word.startsWith key && dictHasKey dict rest then
    match dictLookup dict rest with
    | some v =>
      if cfg.html && dictHasKey flyVars rest then
        some (numMulV scale v,
          ratStr scale ++ "*<font color = red>" ++ rest ++ "</font>")
      else some (numMulV scale v, ratStr scale ++ "*" ++ rest)
    | none => none
  else if word.endsWith "s" && word.startsWith key && dictHasKey dict restS then
    match dictLookup dict restS with
    | some v =>
      if cfg.html && dictHasKey flyVars restS then
        some (numMulV scale v,
          ratStr scale ++ "*<font color = red>" ++ restS ++ "</font>")
      else some (numMulV scale v, ratStr scale ++ "*" ++ restS)
    | none => none
  else none

/-- One iteration of the short-form prefix loop (lines 537-554; here the
imperial test precedes the general plural return, as in the source). -/
def tryOnePrefixShort (cfg : PConfig) (dict : List (String × PyVal))
    (flyVars : List (String × PyVal)) (word : String) (kv : String × Scalar) :
    Option (PyVal × String) :=
  let key := kv.1
  let scale := kv.2
  let rest := word.drop key.length
  let restS := rest.dropRight 1
  if word.startsWith key && dictHasKey UNIT_SYMBOLS rest then
    match dictLookup UNIT_SYMBOLS rest with
    | some nm =>
      match dictLookup ALL_UNITS nm with
      | some v => some (numMulV scale v, ratStr scale ++ "*" ++ nm)
      | none => none
    | none => none
  else if dictHasKey imperialDisp rest then
    match dictLookup dict rest, dictLookup imperialDisp rest with
    | some v, some disp => some (numMulV scale v, ratStr scale ++ "*" ++ disp)
    | _, _ => none
  else if word.startsWith key && dictHasKey dict rest then
    match dictLookup dict rest with
    | some v =>
      if cfg.html && dictHasKey flyVars rest then
        some (numMulV scale v,
          ratStr scale ++ "*<font color = red>" ++ rest ++ "</font>")
      else some (numMulV scale v, ratStr scale ++ "*" ++ rest)
    | none => none
  else if word.endsWith "s" && word.startsWith key && dictHasKey dict restS then
    match dictLookup dict restS with
    | some v =>
      if cfg.html && dictHasKey flyVars restS then
        some (numMulV scale v,
          ratStr scale ++ "*<font color = red>" ++ restS ++ "</font>")
      else if dictHasKey imperialDisp restS then
        match dictLookup imperialDisp restS with
        | some disp => some (numMulV scale v, ratStr scale ++ "*" ++ disp)
        | none => none
      else some (numMulV scale v, ratStr scale ++ "*" ++ restS)
    | none => none
  else none

/-- Embeds `parse_word`: consume a word, then resolve it against the
combined dict, the unit symbols, a trailing-s plural strip, the long and
short SI prefixes, and finally the on-the-fly Flydim creation (which also
registers the word in the session fly-variable dict). -/
def parseWord (cfg : PConfig) (h : ParseHistory) (st : PState) :
    Except PErr ((PyVal × String) × PState) :=
  let (word, st) := wordAux (st.string.length - st.pos) st ""
  let dict := parserDict st.fly_variables h.defined_variables
  if dictHasKey dict word then
    match dictLookup dict word with
    | none => .error .typeErr
    | some v =>
      if dictHasKey imperialDisp word then
        match dictLookup imperialDisp word with
        | some disp => .ok ((v, disp), st)
        | none => .error .typeErr
      else if cfg.html && dictHasKey h.defined_variables word then
        .ok ((v, "<font color=lime>" ++ word ++ "</font>"), st)
      else if cfg.html && dictHasKey st.fly_variables word then
        .ok ((v, "<font color=red>" ++ word ++ "</font>"), st)
      else .ok ((v, word), st)
  else if dictHasKey UNIT_SYMBOLS word then
    match dictLookup UNIT_SYMBOLS word with
    | none => .error .typeErr
    | some nm =>
      match dictLookup ALL_UNITS nm with
      | none => .error .typeErr
      | some v => .ok ((v, nm), st)
  else if word.endsWith "s" && dictHasKey dict (word.dropRight 1) then
    let stem := word.dropRight 1
    match dictLookup dict stem with
    | none => .error .typeErr
    | some v =>
      if dictHasKey imperialDisp stem then
        match dictLookup imperialDisp stem with
        | some disp => .ok ((v, disp), st)
        | none => .error .typeErr
      else if cfg.html && dictHasKey st.fly_variables stem then
        .ok ((v, "<font color=red>" ++ stem ++ "</font>"), st)
      else .ok ((v, stem), st)
  else
    match SI_PREFIXES.findSome? (tryOnePrefix cfg dict st.fly_variables word) with
    | some r => .ok (r, st)
    | none =>
      match SI_PREFIXES_SHORT.findSome?
          (tryOnePrefixShort cfg dict st.fly_variables word) with
      | some r => .ok (r, st)
      | none =>
        if cfg.on_the_fly then
          let st := { st with
            fly_variables := dictSet st.fly_variables word (.flydim (flydimMk word)) }
          if cfg.html then
            .ok ((.flydim (flydimMk word),
                  "<font color = red>" ++ word ++ "</font>"), st)
          else .ok ((.flydim (flydimMk word), word), st)
        else
          .error (.parseErr
            (word ++ " not found in dictionary (occoured at position " ++
             toString (st.pos - 1) ++ ")"))

/-- The loop body of `parse_sentence`: accumulate implicit products of
words (with optional trailing or `^`-marked numeric powers). -/
def parseSentenceAux (cfg : PConfig) (h : ParseHistory) :
    Nat → PyVal → Nat → String → PState → Except PErr (PyVal × PState)
  | 0, _, _, _, _ => .error .outOfFuel
  | f + 1, sentence, count, temp, st0 =>
    let (isAlpha, st1) := checkAlpha st0
    if !isAlpha then
      let temp := if count > 1 then "(" ++ temp ++ ")" else temp
      .ok (sentence, { st1 with output_string := st1.output_string ++ temp })
    else do
      let temp := if count > 0 then temp ++ "*" else temp
      let ((word0, str0), st2) ← parseWord cfg h st1
      let (isNum, st3) := checkNumber st2
      if isNum then do
        let (power, st4) ← parseNumber false st3
        let str1 := "(" ++ str0 ++ ")" ++ "^" ++ ratStr power
        let word1 ← vpow word0 (.num power)
        let sentence1 ← vmul sentence word1
        parseSentenceAux cfg h f sentence1 (count + 1) (temp ++ str1) st4
      else
        let (isPow, st4) := checkPower st3
        if isPow then do
          let (_, st5) ← parseOperator true false st4
          let st6 := skipWhitespace st5
          let (power, st7) ← parseNumber false st6
          let str1 := "(" ++ str0 ++ ")" ++ "^" ++ ratStr power
          let word1 ← vpow word0 (.num power)
          let sentence1 ← vmul sentence word1
          parseSentenceAux cfg h f sentence1 (count + 1) (temp ++ str1) st7
        else do
          let sentence1 ← vmul sentence word0
          parseSentenceAux cfg h f sentence1 (count + 1) (temp ++ str0) st4

/-- Embeds `parse_sentence` (`sentence` starts as the int 1). -/
def parseSentence (cfg : PConfig) (h : ParseHistory) (fuel : Nat) (st : PState) :
    Except PErr (PyVal × PState) :=
  parseSentenceAux cfg h fuel (.num 1) 0 "" st

/-- Embeds the `imperial()` preprocessing of spelling variants. -/
def imperialFix (s : String) : String :=
  let s := " " ++ s ++ " "
  let s := s.replace "Imperial" "imperial"
  let s := s.replace " U.S. " " US "
  let s := s.replace " U.S " " US "
  let s := s.replace " oz. " " ounce "
  let s := s.replace " oz " " ounce "
  let s := s.replace " fl. " " fluid "
  let s := s.replace " fl " " fluid "
  let s := s.replace "imperial gallon" "impGal"
  let s := s.replace "US gallon" "usGal"
  let s := s.replace "US gallon" "usGal"
  let s := s.replace "gallon" "impGal"
  let s := s.replace "imperial fluid ounce" "impFlOz"
  let s := s.replace "US fluid ounce" "usFlOz"
  let s := s.replace "fluid ounce" "impFlOz"
  s.trim

/-- The digit-prefix scan of the html branch of `parse_query`
(`while string[counter].isdigit() or string[counter] == "."`), with the
source's IndexError when the whole string is numeric. -/
def digitScan : List Char → Except PErr Nat
  | [] => .error .indexErr
  | c :: rest =>
    if c.isDigit || c == '.' then
      match digitScan rest with
      | .ok n => .ok (n + 1)
      | .error e => .error e
    else .ok 0

/-- `get_dimensions` of an arbitrary value as stored in the
"Illegal conversion" error (`None` for a bare Flydim). -/
def getDimensionsRepr (v : PyVal) : DimRepr :=
  match getDimensionsV v with
  | some p => pairRepr p
  | none => .pyNone

mutual

/-- Embeds `parse_expression`. -/
def parseExpression (cfg : PConfig) (h : ParseHistory) :
    Nat → PState → Except PErr (PyVal × PState)
  | 0, _ => .error .outOfFuel
  | f + 1, st =>
    if st.pos ≥ st.string.length then
      .error (.parseErr "End of input reached before finished parsing")
    else
      match parseTerm cfg h f st with
      | .error e => .error e
      | .ok (leading, st1) => exprLoop cfg h f leading st1

/-- The `while check_plus()` loop of `parse_expression`. -/
def exprLoop (cfg : PConfig) (h : ParseHistory) :
    Nat → PyVal → PState → Except PErr (PyVal × PState)
  | 0, _, _ => .error .outOfFuel
  | f + 1, leading, st =>
    let (isPlus, st1) := checkPlus st
    if !isPlus then .ok (leading, st1)
    else do
      let st2 := skipWhitespace st1
      let (op, st3) ← parseOperator true true st2
      let st4 := skipWhitespace st3
      let (term, st5) ← parseTerm cfg h f st4
      let leading1 ←
        if op == .plus then vadd leading term
        else if op == .minus then vsub leading term
        else .error (.parseErr "expected + or - between terms")
      exprLoop cfg h f leading1 st5

/-- Embeds `parse_term`. -/
def parseTerm (cfg : PConfig) (h : ParseHistory) :
    Nat → PState → Except PErr (PyVal × PState)
  | 0, _ => .error .outOfFuel
  | f + 1, st =>
    match parseFactor cfg h f st with
    | .error e => .error e
    | .ok (leading, st1) => termLoop cfg h f leading st1

/-- The `while check_times()` loop of `parse_term`. -/
def termLoop (cfg : PConfig) (h : ParseHistory) :
    Nat → PyVal → PState → Except PErr (PyVal × PState)
  | 0, _, _ => .error .outOfFuel
  | f + 1, leading, st =>
    let (isTimes, st1) := checkTimes st
    if !isTimes then .ok (leading, st1)
    else do
      let st2 := skipWhitespace st1
      let (op, st3) ← parseOperator true true st2
      let st4 := skipWhitespace st3
      let (factor, st5) ← parseFactor cfg h f st4
      let leading1 ←
        if op == .star then vmul leading factor
        else if op == .slash then vdiv leading factor
        else .error (.parseErr "expected * or / between factors")
      termLoop cfg h f leading1 st5

/-- Embeds `parse_factor`. -/
def parseFactor (cfg : PConfig) (h : ParseHistory) :
    Nat → PState → Except PErr (PyVal × PState)
  | 0, _ => .error .outOfFuel
  | f + 1, st => do
    let (leading, st1) ← parsePowterm cfg h f st
    let (isPow, st2) := checkPower st1
    if isPow then do
      let (e, st3) ← getExponent cfg h f st2
      let r ← vpow leading e
      .ok (r, st3)
    else .ok (leading, st2)

/-- Embeds `get_exponent` (the right-associative exponent chain). -/
def getExponent (cfg : PConfig) (h : ParseHistory) :
    Nat → PState → Except PErr (PyVal × PState)
  | 0, _ => .error .outOfFuel
  | f + 1, st => do
    let st1 := skipWhitespace st
    let (_, st2) ← parseOperator true true st1
    let st3 := skipWhitespace st2
    let (powterm, st4) ← parsePowterm cfg h f st3
    let (isPow, st5) := checkPower st4
    if isPow then do
      let (e, st6) ← getExponent cfg h f st5
      let r ← vpow powterm e
      .ok (r, st6)
    else .ok (powterm, st5)

/-- Embeds `parse_powterm`: parenthesised expression, `#n` back-reference
(a fresh default-flag parser run on the nth history string against
`history.copy()`, whose resulting history is the copy's and never flows
back), number (optionally juxtaposed with a sentence), sentence, or signed
powterm. -/
def parsePowterm (cfg : PConfig) (h : ParseHistory) :
    Nat → PState → Except PErr (PyVal × PState)
  | 0, _ => .error .outOfFuel
  | f + 1, st =>
    match charAt st with
    | .error e => .error e
    | .ok c =>
      if c == '(' then do
        let st1 := { st with output_string := st.output_string ++ "(",
                             pos := st.pos + 1 }
        let st2 := skipWhitespace st1
        let (expr, st3) ← parseExpression cfg h f st2
        let st4 := skipWhitespace st3
        if st4.pos < st4.string.length && st4.string.getD st4.pos ' ' == ')' then
          .ok (expr, { st4 with output_string := st4.output_string ++ ")",
                                pos := st4.pos + 1 })
        else
          .error (.parseErr
            ("expected ) after expression at position " ++ toString st4.pos))
      else if c == '#' then
        let st1 : PState := { st with pos := st.pos + 1 }
        let (isNum, st2) := checkNumber st1
        if isNum then do
          let (numb, st3) ← parseInteger st2
          let histStr ← histRead h numb
          match parseTop defaultConfig f histStr (histCopy h) with
          | (.error e, _) => .error e
          | (.ok answer, _) =>
            let a2 := answer.2.2
            if a2.isEmpty then .error .indexErr
            else if a2.startsWith "(" && a2.endsWith ")" then
              .ok (answer.1,
                   { st3 with output_string := st3.output_string ++ a2 })
            else
              .ok (answer.1,
                   { st3 with output_string :=
                       st3.output_string ++ "(" ++ a2 ++ ")" })
        else
          .error (.parseErr
            ("expected an integer after # at position " ++ toString st1.pos))
      else
        let (isNum, st1) := checkNumber st
        if isNum then do
          let (numb, st2) ← parseNumber true st1
          let st3 := skipWhitespace st2
          let (isAlpha, st4) := checkAlpha st3
          if isAlpha then do
            let st5 := { st4 with output_string := st4.output_string ++ "*" }
            let (sent, st6) ← parseSentence cfg h f st5
            let r ← vmul (.num numb) sent
            .ok (r, st6)
          else .ok (.num numb, st4)
        else
          let (isAlpha, st2) := checkAlpha st1
          if isAlpha then parseSentence cfg h f st2
          else
            let (isPlus, st3) := checkPlus st2
            if isPlus then do
              let (op, st4) ← parseOperator true true st3
              let st5 := skipWhitespace st4
              if op == .plus then parsePowterm cfg h f st5
              else do
                let (v, st6) ← parsePowterm cfg h f st5
                let r ← vneg v
                .ok (r, st6)
            else
              .error (.parseErr
                ("expected (expression), a number, a unit or a powerterm at at position "
                 ++ toString st3.pos))

/-- Embeds `parse_query`.  The history is returned alongside the result:
it is written here (the `=` binding) and in `parseTop` (the `add`), and
nowhere else. -/
def parseQuery (cfg : PConfig) :
    Nat → PState → ParseHistory →
    (Except PErr (PyVal × String × String)) × ParseHistory
  | 0, _, h => (.error .outOfFuel, h)
  | f + 1, st, h =>
    match parseExpression cfg h f st with
    | .error e => (.error e, h)
    | .ok (initial, st1) =>
      let lhs := st1.output_string
      let st2 := { st1 with output_string := "" }
      let (hasOp, st3) := checkQueryOp st2
      if hasOp then
        match parseQueryOp true st3 with
        | .error e => (.error e, h)
        | .ok (op, st4) =>
          match op with
          | .equ =>
            let variableName :=
              (String.mk (st4.string.take (st4.pos - 1))).replace " " ""
            match parseExpression cfg h f st4 with
            | .error e => (.error e, h)
            | .ok (v, st5) =>
              let h2 : ParseHistory :=
                { h with defined_variables :=
                    dictSet h.defined_variables variableName v }
              if cfg.html then
                (.ok (v, "<font color = lime>" ++ variableName ++ "</font> = " ++
                        st5.output_string,
                      variableName ++ " = " ++ st5.output_string), h2)
              else
                (.ok (v, variableName ++ " = " ++ st5.output_string,
                      "<font color = lime>" ++ variableName ++ "</font>"), h2)
          | _ =>
            match parseExpression cfg h f st4 with
            | .error e => (.error e, h)
            | .ok (target, st5) =>
              match vdiv initial target with
              | .error e => (.error e, h)
              | .ok ratio =>
                let check : Except PErr Unit :=
                  if !cfg.false_requests then
                    match vIsDimensionlessMethod ratio with
                    | .error e => .error e
                    | .ok b =>
                      if !b then
                        .error (.dimErr ⟨"Illegal conversion",
                          [getDimensionsRepr initial, getDimensionsRepr target]⟩)
                      else .ok ()
                  else .ok ()
                match check with
                | .error e => (.error e, h)
                | .ok _ =>
                  match pyStrE ratio with
                  | .error e => (.error e, h)
                  | .ok string0 =>
                    let strRes : Except PErr String :=
                      if cfg.html then
                        match vIsDimensionlessMethod ratio with
                        | .error e => .error e
                        | .ok b =>
                          if !b then
                            match digitScan string0.toList with
                            | .error e => .error e
                            | .ok counter =>
                              .ok (⟨string0.toList.take counter⟩ ++
                                   "<font color = blue>" ++
                                   ⟨string0.toList.drop counter⟩ ++ "</font>")
                          else .ok string0
                      else .ok string0
                    match strRes with
                    | .error e => (.error e, h)
                    | .ok string1 =>
                      (.ok (initial,
                            lhs ++ " = " ++ string1 ++ " * " ++ st5.output_string,
                            lhs), h)
      else
        match pyStrE initial with
        | .error e => (.error e, h)
        | .ok s => (.ok (initial, lhs ++ " = " ++ s, lhs), h)

/-- Embeds `QuantityParser.parse(string, history)`: strip, log into the
history (unconditionally, before any parsing), apply the `imperial`
normalisation and the `" in "`/`" per "` token replacements, reset the
cursor/echo/fly-variable state, and run `parse_query`. -/
def parseTop (cfg : PConfig) :
    Nat → String → ParseHistory →
    (Except PErr (PyVal × String × String)) × ParseHistory
  | fuel, input, h =>
    let s0 := input.trim
    let h1 := histAdd s0 h
    let s1 := imperialFix s0
    let s2 := (s1.replace " in " " % ").replace " per " "/"
    let st0 : PState := ⟨s2.toList, 0, "", []⟩
    match fuel with
    | 0 => (.error .outOfFuel, h1)
    | f + 1 => parseQuery cfg f st0 h1

end

/-! ## Dictionary and dimension lemmas -/

theorem dictLookup_cons {α : Type} (a : String) (b : α) (l : List (String × α))
    (k : String) :
    dictLookup ((a, b) :: l) k = if a == k then some b else dictLookup l k := by
  by_cases h : a == k <;> simp [dictLookup, List.find?, h]

theorem dictHasKey_cons {α : Type} (a : String) (b : α) (l : List (String × α))
    (k : String) :
    dictHasKey ((a, b) :: l) k = (a == k || dictHasKey l k) := by
  simp [dictHasKey]

theorem zipWith_count_eq_iff (l1 l2 : List Scalar) (h : l1.length = l2.length) :
    (List.zipWith (fun x y => decide (x = y)) l1 l2).count true = l1.length ↔
    l1 = l2 := by
  induction l1 generalizing l2 with
  | nil => cases l2 <;> simp_all
  | cons x l1 ih =>
    cases l2 with
    | nil => simp_all
    | cons y l2 =>
      simp only [List.length_cons, Nat.succ.injEq] at h
      by_cases hxy : x = y
      · subst hxy
        have hred : (List.zipWith (fun x y => decide (x = y)) (x :: l1)
            (x :: l2)).count true =
            (List.zipWith (fun x y => decide (x = y)) l1 l2).count true + 1 := by
          simp [List.count_cons]
        rw [hred]
        simp only [List.length_cons]
        constructor
        · intro hcount
          have := (ih l2 h).mp (by omega)
          simp [this]
        · intro heq
          have hl : l1 = l2 := by injection heq
          have := (ih l2 h).mpr hl
          omega
      · have hle : (List.zipWith (fun x y => decide (x = y)) l1 l2).count true ≤
            l1.length := by
          calc (List.zipWith (fun x y => decide (x = y)) l1 l2).count true
              ≤ (List.zipWith (fun x y => decide (x = y)) l1 l2).length :=
                List.count_le_length _ _
            _ ≤ l1.length := by simp
        have hred : (List.zipWith (fun x y => decide (x = y)) (x :: l1)
            (y :: l2)).count true =
            (List.zipWith (fun x y => decide (x = y)) l1 l2).count true := by
          simp [List.count_cons, hxy]
        rw [hred]
        simp only [List.length_cons]
        constructor
        · intro hcount
          omega
        · intro heq
          have hl : x = y := by injection heq
          exact absurd hl hxy

theorem dimBeq_iff (a b : Dimension) (ha : a.dims.length = 7)
    (hb : b.dims.length = 7) : dimBeq a b = true ↔ a = b := by
  unfold dimBeq
  rw [beq_iff_eq, ← ha, zipWith_count_eq_iff a.dims b.dims (by omega)]
  constructor
  · intro h
    cases a
    cases b
    simp_all
  · intro h
    simp [h]

theorem dimBeq_refl (a : Dimension) (ha : a.dims.length = 7) :
    dimBeq a a = true :=
  (dimBeq_iff a a ha ha).mpr rfl

theorem dimBeq_symm (a b : Dimension) : dimBeq a b = dimBeq b a := by
  unfold dimBeq
  rw [List.zipWith_comm]
  have h2 : (fun (y x : Scalar) => decide (x = y)) =
      fun (x y : Scalar) => decide (x = y) := by
    funext y x
    exact decide_eq_decide.mpr eq_comm
  rw [h2]

theorem dimIsDimensionless_iff (a : Dimension) (ha : a.dims.length = 7) :
    dimIsDimensionless a = true ↔ a = dim0 := by
  unfold dimIsDimensionless
  rw [beq_iff_eq, ← ha]
  have h0 : dim0.dims = List.replicate 7 (0 : Scalar) := by decide
  constructor
  · intro h
    have hall := List.countP_eq_length.mp h
    have hdims : a.dims = dim0.dims := by
      rw [h0, List.eq_replicate_iff]
      exact ⟨ha, fun b hb => by simpa using hall b hb⟩
    exact congrArg Dimension.mk hdims
  · intro h
    subst h
    decide

/-! ## Claim C8: history bounding -/

theorem histAdd_history (s : String) (h : ParseHistory) :
    (histAdd s h).history =
    if h.history.length + 1 > 200 then (h.history ++ [s]).tail
    else h.history ++ [s] := by
  simp [histAdd]

theorem histAddAll_append (l : List String) (s : String) (h : ParseHistory) :
    histAddAll (l ++ [s]) h = histAdd s (histAddAll l h) := by
  simp [histAddAll, List.foldl_append]

theorem histAddAll_entries (l : List String) :
    (histAddAll l emptyHistory).history = l.drop (l.length - 200) := by
  induction l using List.reverseRecOn with
  | nil => rfl
  | append_singleton l s ih =>
    rw [histAddAll_append, histAdd_history, ih]
    have hlen : (l.drop (l.length - 200)).length = l.length - (l.length - 200) :=
      List.length_drop _ _
    by_cases hc : l.length ≥ 200
    · rw [if_pos (by omega)]
      have hne : l.drop (l.length - 200) ≠ [] := by
        intro hnil
        have hlen2 := congrArg List.length hnil
        rw [hlen] at hlen2
        simp at hlen2
        omega
      rw [List.tail_append_singleton_of_ne_nil hne, List.tail_drop]
      have h1 : l.length - 200 + 1 = (l ++ [s]).length - 200 := by
        simp only [List.length_append, List.length_cons, List.length_nil]
        omega
      rw [h1, List.drop_append_of_le_length
        (by simp only [List.length_append, List.length_cons, List.length_nil]
            omega)]
    · rw [if_neg (by omega)]
      have h1 : (l ++ [s]).length - 200 = 0 := by simp; omega
      have h2 : l.length - 200 = 0 := by omega
      rw [h1, h2]
      simp

/-- C8: `ParseHistory.length` never exceeds 200 (add preserves the bound,
evicting exactly the oldest entry on overflow), and after 250 adds on a
fresh history the length is 200 and `read(0)` returns the 51st added
string (index 50). -/
theorem claim_C8 :
    (∀ (h : ParseHistory) (s : String),
      histLength h ≤ 200 → histLength (histAdd s h) ≤ 200) ∧
    (∀ l : List String, l.length = 250 →
      histLength (histAddAll l emptyHistory) = 200 ∧
      histRead (histAddAll l emptyHistory) 0 = .ok (l.getD 50 "")) := by
  constructor
  · intro h s hle
    unfold histLength at *
    rw [histAdd_history]
    by_cases hc : h.history.length + 1 > 200
    · rw [if_pos hc]
      simp [List.length_tail]
      omega
    · rw [if_neg hc]
      simp
      omega
  · intro l hl
    have he := histAddAll_entries l
    have hlen : (histAddAll l emptyHistory).history.length = 200 := by
      rw [he, List.length_drop]
      omega
    refine ⟨hlen, ?_⟩
    unfold histRead
    rw [if_pos (by omega)]
    congr 1
    rw [List.getD_eq_getElem?_getD, List.getD_eq_getElem?_getD, he,
      List.getElem?_drop]
    have h50 : l.length - 200 + 0 = 50 := by omega
    rw [h50]

/-- C8 witness: a concrete run of 250 adds. -/
def c8List : List String :=
  (List.range 250).map (fun n => toString n)

/-- C8 witness: the bound and the 250-add scenario at concrete inputs. -/
theorem claim_C8_witness :
    (histLength emptyHistory ≤ 200 ∧
      histLength (histAdd "x" emptyHistory) ≤ 200) ∧
    c8List.length = 250 ∧
    histLength (histAddAll c8List emptyHistory) = 200 ∧
    histRead (histAddAll c8List emptyHistory) 0 = .ok (c8List.getD 50 "") :=
  ⟨⟨by decide, claim_C8.1 emptyHistory "x" (by decide)⟩, by simp [c8List],
   (claim_C8.2 c8List (by simp [c8List])).1,
   (claim_C8.2 c8List (by simp [c8List])).2⟩

/-! ## Claim C2: operand mutation by Flyquant negation/abs -/

/-- C2 (code bug evidence): negating a Flyquant observably changes the
operand.  With the store holding the operand's Quantity (value 2, length
dimension) at address 0, after `fqNegRef` the operand's own cell reads -2;
`fqAbsRef` on a cell holding -5 leaves the operand reading 5.  This is the
aliasing of `Flyquant.copy` (`Flyquant(self.fly, self.quant)`) combined
with the in-place `a.quant.value = -a.quant.value` of `__neg__`, and it
contradicts the claim that operands are observationally unchanged. -/
theorem claim_C2 :
    (storeGet (⟨[⟨2, ⟨[1, 0, 0, 0, 0, 0, 0]⟩, none⟩]⟩ : QStore) 0).value = 2 ∧
    (storeGet (fqNegRef ⟨[⟨2, ⟨[1, 0, 0, 0, 0, 0, 0]⟩, none⟩]⟩
        ⟨⟨[("house", 1)]⟩, 0⟩).2 0).value = -2 ∧
    (storeGet (fqAbsRef ⟨[⟨-5, ⟨[1, 0, 0, 0, 0, 0, 0]⟩, none⟩]⟩
        ⟨⟨[("house", 1)]⟩, 0⟩).2 0).value = 5 := by
  decide

/-! ## Lemmas on the dict operations, for the Flydim pruning claims -/

theorem dictLookup_eq_none_of_not_hasKey {α : Type} (d : List (String × α))
    (k : String) (h : dictHasKey d k = false) : dictLookup d k = none := by
  induction d with
  | nil => rfl
  | cons a l ih =>
    simp only [dictHasKey, List.any_cons, Bool.or_eq_false_iff] at h
    simp only [dictLookup, List.find?]
    rw [h.1]
    exact ih (by simp [dictHasKey, h.2])

theorem dictLookup_append_singleton {α : Type} (d : List (String × α))
    (k : String) (v : α) (h : dictHasKey d k = false) :
    dictLookup (d ++ [(k, v)]) k = some v := by
  induction d with
  | nil => simp [dictLookup, List.find?]
  | cons a l ih =>
    simp only [dictHasKey, List.any_cons, Bool.or_eq_false_iff] at h
    simp only [List.cons_append, dictLookup, List.find?]
    rw [h.1]
    exact ih (by simp [dictHasKey, h.2])

theorem map_replace_eq_self {α : Type} (l : List (String × α)) (k : String)
    (v : α) (h : ∀ p ∈ l, (p.1 == k) = false) :
    l.map (fun p => if p.1 == k then (p.1, v) else p) = l := by
  induction l with
  | nil => rfl
  | cons a l ih =>
    simp only [List.map_cons]
    rw [h a (List.mem_cons_self a l), ih (fun p hp => h p (List.mem_cons_of_mem a hp))]
    simp

theorem not_hasKey_entries {α : Type} (d : List (String × α)) (k : String)
    (h : dictHasKey d k = false) : ∀ p ∈ d, (p.1 == k) = false := by
  intro p hp
  unfold dictHasKey at h
  rw [Bool.eq_false_iff] at h
  by_contra hc
  apply h
  rw [List.any_eq_true]
  exact ⟨p, hp, by simpa using hc⟩

theorem dictSet_dictSet {α : Type} (d : List (String × α)) (k : String)
    (v w : α) : dictSet (dictSet d k v) k w = dictSet d k w := by
  by_cases h : dictHasKey d k = true
  · have h1 : dictSet d k v = d.map (fun p => if p.1 == k then (p.1, v) else p) := by
      simp [dictSet, h]
    have h2 : dictHasKey
        (d.map (fun p => if p.1 == k then (p.1, v) else p)) k = true := by
      unfold dictHasKey at h ⊢
      rw [List.any_eq_true] at h ⊢
      obtain ⟨p, hp, hpk⟩ := h
      refine ⟨if p.1 == k then (p.1, v) else p, List.mem_map_of_mem _ hp, ?_⟩
      rw [hpk]
      simpa using hpk
    rw [h1]
    simp only [dictSet, h2, if_true, h, List.map_map]
    apply List.map_congr_left
    intro p _
    by_cases hpk : p.1 = k
    · simp [Function.comp, hpk]
    · simp [Function.comp, hpk]
  · have hfalse : dictHasKey d k = false := by simpa using h
    have h1 : dictSet d k v = d ++ [(k, v)] := by simp [dictSet, hfalse]
    have h2 : dictHasKey (d ++ [(k, v)]) k = true := by
      simp [dictHasKey]
    rw [h1]
    simp only [dictSet, h2, if_true, hfalse, Bool.false_eq_true, if_false]
    rw [List.map_append, map_replace_eq_self _ _ _ (not_hasKey_entries d k hfalse)]
    simp

theorem dictDel_dictSet {α : Type} (d : List (String × α)) (k : String)
    (v : α) : dictDel (dictSet d k v) k = dictDel d k := by
  by_cases h : dictHasKey d k = true
  · simp only [dictSet, h, if_true, dictDel]
    rw [List.filter_map]
    have hpred : ∀ p ∈ d,
        ((fun q : String × α => q.1 != k) ∘
          (fun p : String × α => if p.1 == k then (p.1, v) else p)) p =
        (p.1 != k) := by
      intro p _
      by_cases hpk : p.1 = k
      · simp [Function.comp, hpk]
      · simp [Function.comp, hpk]
    rw [List.filter_congr hpred]
    apply map_replace_eq_self
    intro p hp
    have hne := List.of_mem_filter hp
    simpa using hne
  · have hfalse : dictHasKey d k = false := by simpa using h
    simp only [dictSet, hfalse, Bool.false_eq_true, if_false, dictDel]
    rw [List.filter_append]
    simp

theorem dictSet_all {α : Type} (p : String × α → Bool) (d : List (String × α))
    (k : String) (v : α) (hd : d.all p = true) (hkv : p (k, v) = true) :
    (dictSet d k v).all p = true := by
  unfold dictSet
  by_cases h : dictHasKey d k = true
  · rw [if_pos h]
    rw [List.all_eq_true] at hd ⊢
    intro q hq
    rw [List.mem_map] at hq
    obtain ⟨r, hr, hrq⟩ := hq
    by_cases hrk : r.1 = k
    · rw [if_pos (by simpa using hrk)] at hrq
      rw [← hrq, hrk]
      exact hkv
    · rw [if_neg (by simpa using hrk)] at hrq
      rw [← hrq]
      exact hd r hr
  · rw [if_neg h]
    rw [List.all_append]
    simp [hd, hkv]

theorem dictDel_all {α : Type} (p : String × α → Bool) (d : List (String × α))
    (k : String) (hd : d.all p = true) : (dictDel d k).all p = true := by
  unfold dictDel
  rw [List.all_eq_true] at hd ⊢
  intro q hq
  exact hd q (List.mem_of_mem_filter hq)

/-- One step of `Flydim.__mul__` preserves the absence of zero exponents:
a freshly inserted or updated entry is deleted exactly when it became 0. -/
theorem fdMulStep_noZero (s : List (String × Scalar)) (kv : String × Scalar)
    (hs : s.all (fun p => p.2 != 0) = true) :
    (fdMulStep s kv).all (fun p => p.2 != 0) = true := by
  unfold fdMulStep fdMulStep2 fdMulStep3
  by_cases hk : dictHasKey s kv.1 = true
  · rw [if_pos hk]
    by_cases hz : (((dictLookup s kv.1).getD 0 + kv.2) == 0) = true
    · rw [if_pos hz, dictDel_dictSet]
      exact dictDel_all _ s kv.1 hs
    · rw [if_neg hz]
      exact dictSet_all _ s kv.1 _ hs (by simpa using hz)
  · rw [if_neg hk]
    have hk' : dictHasKey s kv.1 = false := by simpa using hk
    have h1 : dictSet s kv.1 0 = s ++ [(kv.1, (0 : Scalar))] := by
      simp [dictSet, hk']
    rw [h1, dictLookup_append_singleton s kv.1 0 hk']
    simp only [Option.getD_some]
    by_cases hz : ((0 + kv.2 : Scalar) == 0) = true
    · rw [if_pos hz, ← h1, dictDel_dictSet, dictDel_dictSet]
      exact dictDel_all _ s kv.1 hs
    · rw [if_neg hz, ← h1, dictSet_dictSet]
      exact dictSet_all _ s kv.1 _ hs (by simpa using hz)

theorem foldl_fdMulStep_all (l : List (String × Scalar)) :
    ∀ init : List (String × Scalar), init.all (fun p => p.2 != 0) = true →
    (l.foldl fdMulStep init).all (fun p => p.2 != 0) = true := by
  induction l with
  | nil => intro init h; simpa using h
  | cons kv rest ih =>
    intro init h
    exact ih _ (fdMulStep_noZero init kv h)

theorem fdMul_noZero (a b : Flydim) (ha : fdNoZero a = true) :
    fdNoZero (fdMul a b) = true :=
  foldl_fdMulStep_all b.dim a.dim ha

theorem fdDiv_noZero (a b : Flydim) (ha : fdNoZero a = true) :
    fdNoZero (fdDiv a b) = true :=
  fdMul_noZero a (fdInvert b) ha

/-- Multiplying a duplicate-free exponent dict with its own inversion
cancels every entry: the running dict loses exactly one key per step. -/
theorem foldl_invert_self (l : List (String × Scalar))
    (hnd : (l.map Prod.fst).Nodup) :
    (l.map (fun p => (p.1, p.2 * -1))).foldl fdMulStep l = [] := by
  induction l with
  | nil => rfl
  | cons kv rest ih =>
    obtain ⟨k, v⟩ := kv
    simp only [List.map_cons, List.nodup_cons] at hnd
    have hknotin : ∀ p ∈ rest, (p.1 == k) = false := by
      intro p hp
      rw [beq_eq_false_iff_ne]
      intro hc
      exact hnd.1 (hc ▸ List.mem_map_of_mem Prod.fst hp)
    have hstep : fdMulStep ((k, v) :: rest) (k, v * -1) = rest := by
      unfold fdMulStep fdMulStep2 fdMulStep3
      have hhk : dictHasKey ((k, v) :: rest) k = true := by
        simp [dictHasKey]
      rw [if_pos hhk]
      have hlook : dictLookup ((k, v) :: rest) k = some v := by
        rw [dictLookup_cons]
        simp
      rw [hlook]
      simp only [Option.getD_some]
      have hzero : (v + v * -1 : Scalar) = 0 := by ring
      rw [if_pos (by rw [hzero]; simp), dictDel_dictSet]
      unfold dictDel
      rw [List.filter_cons]
      simp only [bne_self_eq_false, Bool.false_eq_true, if_false]
      apply List.filter_eq_self.mpr
      intro p hp
      simp [bne, hknotin p hp]
    simp only [List.map_cons, List.foldl_cons, hstep]
    exact ih hnd.2

/-- The core cancellation: `d * d.invert()` is the empty Flydim. -/
theorem fdMul_invert_self (d : Flydim) (h : dictNodup d.dim) :
    fdMul d (fdInvert d) = ⟨[]⟩ :=
  congrArg Flydim.mk (foldl_invert_self d.dim h)

/-! ## Claim C5: zero-exponent pruning in Flydim operations -/

/-- C5 counterexample: `Flydim("house") ** 0` keeps a zero-exponent entry
(the scalar branch of `__pow__` multiplies exponents without pruning), so
it is not the empty map and not dimensionless, contrary to the claim. -/
theorem claim_C5_counterexample :
    fdNoZero (fdPow (flydimMk "house") 0) = false ∧
    fdIsDimensionless (fdPow (flydimMk "house") 0) = false ∧
    fdPow (flydimMk "house") 0 = ⟨[("house", 0)]⟩ := by
  have hfd : flydimMk "house" = ⟨[("house", (1 : Scalar))]⟩ := by decide
  rw [hfd]
  refine ⟨?_, ?_, ?_⟩ <;> norm_num [fdPow, fdNoZero, fdIsDimensionless]

/-- C5 (amended): `Flydim` multiplication and division preserve the
no-zero-exponent invariant of their left operand, and `d / d` is the empty
(dimensionless) map for a duplicate-free dict; but `__pow__` does not
prune, so `d ** 0` retains zero-exponent entries (see the counterexample). -/
theorem claim_C5 :
    (∀ a b : Flydim, fdNoZero a = true → fdNoZero (fdMul a b) = true) ∧
    (∀ a b : Flydim, fdNoZero a = true → fdNoZero (fdDiv a b) = true) ∧
    (∀ d : Flydim, dictNodup d.dim → fdDiv d d = ⟨[]⟩) :=
  ⟨fdMul_noZero, fdDiv_noZero, fun d h => fdMul_invert_self d h⟩

/-- C5 witness: the three amended statements at concrete dicts. -/
theorem claim_C5_witness :
    fdNoZero (fdMul (flydimMk "house") (flydimMk "flat")) = true ∧
    fdNoZero (fdDiv (flydimMk "house") (flydimMk "flat")) = true ∧
    fdDiv (flydimMk "house") (flydimMk "house") = ⟨[]⟩ :=
  ⟨claim_C5.1 (flydimMk "house") (flydimMk "flat") (by decide),
   claim_C5.2.1 (flydimMk "house") (flydimMk "flat") (by decide),
   claim_C5.2.2 (flydimMk "house") (by unfold dictNodup; decide)⟩

/-! ## Claim C1: the Flyquant collapse law -/

/-- Tests whether a dispatch result is a Flyquant object. -/
def isFlyquantRes (r : Except PErr PyVal) : Bool :=
  match r with
  | .ok (.flyq _) => true
  | _ => false

/-- Tests whether a dispatch result is a Quantity (or Unit) object. -/
def isQuantityRes (r : Except PErr PyVal) : Bool :=
  match r with
  | .ok (.quant _) => true
  | _ => false

/-- Tests whether a dispatch result is a plain number. -/
def isNumRes (r : Except PErr PyVal) : Bool :=
  match r with
  | .ok (.num _) => true
  | _ => false

/-- C1 counterexample: with fly parts house and house^-1 (exact inverses),
`a * b` is still a Flyquant, not a plain Quantity; and `fly(6)/fly(3)` is a
Flyquant, not a plain number.  Both refute the claimed collapse of
`__mul__`/`__div__`. -/
theorem claim_C1_counterexample :
    isQuantityRes (vmul (.flyq ⟨⟨[("house", 1)]⟩, ⟨3, dim0, none⟩⟩)
      (.flyq ⟨⟨[("house", -1)]⟩, ⟨2, dim0, none⟩⟩)) = false ∧
    isFlyquantRes (vmul (.flyq ⟨⟨[("house", 1)]⟩, ⟨3, dim0, none⟩⟩)
      (.flyq ⟨⟨[("house", -1)]⟩, ⟨2, dim0, none⟩⟩)) = true ∧
    isNumRes (vdiv (flyV (.num 6)) (flyV (.num 3))) = false ∧
    isFlyquantRes (vdiv (flyV (.num 6)) (flyV (.num 3))) = true := by
  decide

/-- C1 (amended): Flyquant `__mul__`/`__div__` never collapse to a simpler
type.  When the fly parts are exact inverses the product is a Flyquant
whose fly part is empty (with the quant parts multiplied); `fly(x)/fly(y)`
is a Flyquant wrapping the dimensionless ratio; the collapse to a plain
number does occur in `__add__` (`fly(x) + fly(y)` is the bare number
`x + y` for `x` nonzero). -/
theorem claim_C1 :
    (∀ a b : Flyquant, dictNodup a.fly.dim → b.fly = fdInvert a.fly →
      vmul (.flyq a) (.flyq b) =
        .ok (.flyq ⟨⟨[]⟩, quantMulQ a.quant b.quant⟩)) ∧
    (∀ x y : Scalar,
      vdiv (flyV (.num x)) (flyV (.num y)) =
        .ok (.flyq ⟨⟨[]⟩, ⟨x * (1 / y), dim0, none⟩⟩)) ∧
    (∀ x y : Scalar, x ≠ 0 →
      vadd (flyV (.num x)) (flyV (.num y)) = .ok (.num (x + y))) := by
  refine ⟨?_, ?_, ?_⟩
  · intro a b hnd hb
    simp only [vmul, hb, fdMul_invert_self a.fly hnd]
  · intro x y
    norm_num [vdiv, flyV, flydimMk, quantityMk, fqInvert, rdivScalarQ,
      quantMulQ, withDimensions, fdMul, fdInvert, dimMul, dim0]
  · intro x y hx
    have hval : (x * (x + y) * x⁻¹ : Scalar) = x + y := by
      field_simp
    norm_num [flyV, vadd, fqAdd, quantityMk, getDimensionsV, pairBeq,
      fqGetDimensions, fdGetDimensions, fdIsDimensionless, flydimMk,
      flyDimsBeq, fltV, quantMulScalar, withDimensions,
      dimBeq_refl dim0 (by decide), hval]

/-- C1 witness: the amended statements at concrete inputs. -/
theorem claim_C1_witness :
    vmul (.flyq ⟨⟨[("house", 1)]⟩, ⟨3, dim0, none⟩⟩)
        (.flyq ⟨fdInvert ⟨[("house", 1)]⟩, ⟨2, dim0, none⟩⟩) =
      .ok (.flyq ⟨⟨[]⟩, quantMulQ ⟨3, dim0, none⟩ ⟨2, dim0, none⟩⟩) ∧
    vadd (flyV (.num 6)) (flyV (.num 3)) = .ok (.num (6 + 3)) :=
  ⟨claim_C1.1 ⟨⟨[("house", 1)]⟩, ⟨3, dim0, none⟩⟩
      ⟨fdInvert ⟨[("house", 1)]⟩, ⟨2, dim0, none⟩⟩ (by unfold dictNodup; decide) rfl,
   claim_C1.2.2 6 3 (by norm_num)⟩

/-! ## Claim C3: addition/subtraction dimension gate -/

/-- C3 counterexample: adding a zero-valued Quantity of a different
dimension succeeds (the `other == 0` escape of `__add__` applies to
Quantities, not only to bare scalars): `Quantity(1, length) +
Quantity(0, time)` returns `Quantity(1, length)` although the dimensions
differ, where the claim requires a DimensionMismatch. -/
theorem claim_C3_counterexample :
    dimBeq (⟨[0, 0, 1, 0, 0, 0, 0]⟩ : Dimension) ⟨[1, 0, 0, 0, 0, 0, 0]⟩ =
      false ∧
    qadd ⟨1, ⟨[1, 0, 0, 0, 0, 0, 0]⟩, none⟩
        (.q ⟨0, ⟨[0, 0, 1, 0, 0, 0, 0]⟩, none⟩) =
      .ok ⟨1, ⟨[1, 0, 0, 0, 0, 0, 0]⟩, none⟩ := by
  have hd : dimBeq (⟨[0, 0, 1, 0, 0, 0, 0]⟩ : Dimension)
      ⟨[1, 0, 0, 0, 0, 0, 0]⟩ = false := by decide
  refine ⟨hd, ?_⟩
  norm_num [qadd, qargDim, qargVal, qargEqZero, withDimensions, hd]

/-- C3 (amended): `a + b` and `a - b` on Quantities succeed with
`Quantity(a.value ± b.value, a.dim)` iff the dimensions are equal OR `b`'s
numeric value is 0 (Python's `other == 0`), and raise DimensionMismatch
otherwise; a bare scalar is accepted iff it equals 0 or `a` is
dimensionless (a scalar carries the empty dimension), so
`Quantity(1, length) + 0 == Quantity(1, length)`. -/
theorem claim_C3 :
    ∀ a b : Quantity, a.dim.dims.length = 7 → b.dim.dims.length = 7 →
    ((qadd a (.q b) = .ok (withDimensions (a.value + b.value) a.dim)) ↔
      (a.dim = b.dim ∨ b.value = 0)) ∧
    (¬(a.dim = b.dim ∨ b.value = 0) →
      qadd a (.q b) = .error ⟨"Addition", [.d a.dim, .d b.dim]⟩) ∧
    ((qsub a (.q b) = .ok (withDimensions (a.value - b.value) a.dim)) ↔
      (a.dim = b.dim ∨ b.value = 0)) ∧
    (¬(a.dim = b.dim ∨ b.value = 0) →
      qsub a (.q b) = .error ⟨"Subtraction", [.d a.dim, .d b.dim]⟩) ∧
    (∀ x : Scalar,
      (qadd a (.s x) = .ok (withDimensions (a.value + x) a.dim)) ↔
        (a.dim = dim0 ∨ x = 0)) := by
  intro a b ha hb
  have hcond : (dimBeq b.dim a.dim || (b.value == 0)) = true ↔
      (a.dim = b.dim ∨ b.value = 0) := by
    rw [Bool.or_eq_true, beq_iff_eq, dimBeq_iff b.dim a.dim hb ha]
    constructor
    · rintro (h | h)
      · exact Or.inl h.symm
      · exact Or.inr h
    · rintro (h | h)
      · exact Or.inl h.symm
      · exact Or.inr h
  have hcondS : ∀ x : Scalar, (dimBeq dim0 a.dim || (x == 0)) = true ↔
      (a.dim = dim0 ∨ x = 0) := by
    intro x
    rw [Bool.or_eq_true, beq_iff_eq, dimBeq_iff dim0 a.dim (by decide) ha]
    constructor
    · rintro (h | h)
      · exact Or.inl h.symm
      · exact Or.inr h
    · rintro (h | h)
      · exact Or.inl h.symm
      · exact Or.inr h
  refine ⟨?_, ?_, ?_, ?_, ?_⟩
  · by_cases hc : (dimBeq b.dim a.dim || (b.value == 0)) = true
    · simp [qadd, qargDim, qargVal, qargEqZero, hc, hcond.mp hc]
    · have hcf : (dimBeq b.dim a.dim || (b.value == 0)) = false := by
        simpa using hc
      simp only [qadd, qargDim, qargVal, qargEqZero, hcf,
        Bool.false_eq_true, if_false]
      constructor
      · intro habs
        exact absurd habs (by simp)
      · intro hp
        exact absurd hp (fun h => hc (hcond.mpr h))
  · intro hneg
    have hcf : (dimBeq b.dim a.dim || (b.value == 0)) = false := by
      rw [Bool.eq_false_iff]
      intro hc
      exact hneg (hcond.mp hc)
    simp [qadd, qargDim, qargVal, qargEqZero, hcf]
  · by_cases hc : (dimBeq b.dim a.dim || (b.value == 0)) = true
    · simp [qsub, qargDim, qargVal, qargEqZero, hc, hcond.mp hc]
    · have hcf : (dimBeq b.dim a.dim || (b.value == 0)) = false := by
        simpa using hc
      simp only [qsub, qargDim, qargVal, qargEqZero, hcf,
        Bool.false_eq_true, if_false]
      constructor
      · intro habs
        exact absurd habs (by simp)
      · intro hp
        exact absurd hp (fun h => hc (hcond.mpr h))
  · intro hneg
    have hcf : (dimBeq b.dim a.dim || (b.value == 0)) = false := by
      rw [Bool.eq_false_iff]
      intro hc
      exact hneg (hcond.mp hc)
    simp [qsub, qargDim, qargVal, qargEqZero, hcf]
  · intro x
    by_cases hc : (dimBeq dim0 a.dim || (x == 0)) = true
    · simp [qadd, qargDim, qargVal, qargEqZero, hc, (hcondS x).mp hc]
    · have hcf : (dimBeq dim0 a.dim || (x == 0)) = false := by
        simpa using hc
      simp only [qadd, qargDim, qargVal, qargEqZero, hcf,
        Bool.false_eq_true, if_false]
      constructor
      · intro habs
        exact absurd habs (by simp)
      · intro hp
        exact absurd hp (fun h => hc ((hcondS x).mpr h))

/-- C3 witness: the amended statement at concrete quantities, including
`Quantity(1, length) + 0 == Quantity(1, length)`. -/
theorem claim_C3_witness :
    (qadd ⟨1, ⟨[1, 0, 0, 0, 0, 0, 0]⟩, none⟩
        (.q ⟨2, ⟨[1, 0, 0, 0, 0, 0, 0]⟩, none⟩) =
      .ok (withDimensions ((1 : Scalar) + 2) ⟨[1, 0, 0, 0, 0, 0, 0]⟩)) ∧
    (qadd ⟨1, ⟨[1, 0, 0, 0, 0, 0, 0]⟩, none⟩
        (.q ⟨2, ⟨[0, 0, 1, 0, 0, 0, 0]⟩, none⟩) =
      .error ⟨"Addition", [.d ⟨[1, 0, 0, 0, 0, 0, 0]⟩,
                           .d ⟨[0, 0, 1, 0, 0, 0, 0]⟩]⟩) ∧
    (qadd ⟨1, ⟨[1, 0, 0, 0, 0, 0, 0]⟩, none⟩ (.s 0) =
      .ok (withDimensions ((1 : Scalar) + 0) ⟨[1, 0, 0, 0, 0, 0, 0]⟩)) :=
  ⟨((claim_C3 ⟨1, ⟨[1, 0, 0, 0, 0, 0, 0]⟩, none⟩
      ⟨2, ⟨[1, 0, 0, 0, 0, 0, 0]⟩, none⟩ (by decide) (by decide)).1).mpr
      (Or.inl rfl),
   (claim_C3 ⟨1, ⟨[1, 0, 0, 0, 0, 0, 0]⟩, none⟩
      ⟨2, ⟨[0, 0, 1, 0, 0, 0, 0]⟩, none⟩ (by decide) (by decide)).2.1
      (by intro h; rcases h with h | h; · exact absurd h (by decide);
          · exact absurd h (by norm_num)),
   ((claim_C3 ⟨1, ⟨[1, 0, 0, 0, 0, 0, 0]⟩, none⟩
      ⟨2, ⟨[1, 0, 0, 0, 0, 0, 0]⟩, none⟩ (by decide) (by decide)).2.2.2.2 0).mpr
      (Or.inr rfl)⟩

/-! ## Claim C4: comparison dimension gate -/

/-- C4 counterexample: `==` on Quantities of unequal dimension does not
raise; it returns `False` (units.py line 548), unlike the other five
comparison operators. -/
theorem claim_C4_counterexample :
    dimBeq (⟨[1, 0, 0, 0, 0, 0, 0]⟩ : Dimension) ⟨[0, 0, 1, 0, 0, 0, 0]⟩ =
      false ∧
    qeq ⟨1, ⟨[1, 0, 0, 0, 0, 0, 0]⟩, none⟩
        (.q ⟨1, ⟨[0, 0, 1, 0, 0, 0, 0]⟩, none⟩) = .ok false := by
  have hd : dimBeq (⟨[1, 0, 0, 0, 0, 0, 0]⟩ : Dimension)
      ⟨[0, 0, 1, 0, 0, 0, 0]⟩ = false := by decide
  exact ⟨hd, by simp [qeq, hd]⟩

/-- C4 (amended): on Quantities of unequal dimension, `<`, `<=`, `>`, `>=`
raise a DimensionMismatch carrying the operation name and both dimensions;
`!=` raises one whose description string is "Equals"; `==` returns `False`
without raising.  Comparing with the literal scalar 0 never fails and
compares the bare values. -/
theorem claim_C4 :
    ∀ a b : Quantity, a.dim.dims.length = 7 → b.dim.dims.length = 7 →
    a.dim ≠ b.dim →
    qlt a (.q b) = .error ⟨"LessThan", [.d a.dim, .d b.dim]⟩ ∧
    qle a (.q b) = .error ⟨"LessThanOrEquals", [.d a.dim, .d b.dim]⟩ ∧
    qgt a (.q b) = .error ⟨"GreaterThan", [.d a.dim, .d b.dim]⟩ ∧
    qge a (.q b) = .error ⟨"GreaterThanOrEquals", [.d a.dim, .d b.dim]⟩ ∧
    qne a (.q b) = .error ⟨"Equals", [.d a.dim, .d b.dim]⟩ ∧
    qeq a (.q b) = .ok false ∧
    qlt a (.s 0) = .ok (decide (a.value < 0)) ∧
    qle a (.s 0) = .ok (decide (a.value ≤ 0)) ∧
    qgt a (.s 0) = .ok (decide (a.value > 0)) ∧
    qge a (.s 0) = .ok (decide (a.value ≥ 0)) ∧
    qeq a (.s 0) = .ok (a.value == 0) ∧
    qne a (.s 0) = .ok (a.value != 0) := by
  intro a b ha hb hne
  have hd : dimBeq a.dim b.dim = false := by
    rw [Bool.eq_false_iff]
    intro hc
    exact hne ((dimBeq_iff a.dim b.dim ha hb).mp hc)
  refine ⟨by simp [qlt, hd], by simp [qle, hd], by simp [qgt, hd],
    by simp [qge, hd], by simp [qne, hd], by simp [qeq, hd],
    by simp [qlt], by simp [qle], by simp [qgt], by simp [qge],
    by simp [qeq], by simp [qne]⟩

/-- C4 witness: the amended statement at concrete quantities. -/
theorem claim_C4_witness :
    qlt ⟨1, ⟨[1, 0, 0, 0, 0, 0, 0]⟩, none⟩
        (.q ⟨1, ⟨[0, 0, 1, 0, 0, 0, 0]⟩, none⟩) =
      .error ⟨"LessThan", [.d ⟨[1, 0, 0, 0, 0, 0, 0]⟩,
                           .d ⟨[0, 0, 1, 0, 0, 0, 0]⟩]⟩ ∧
    qeq ⟨1, ⟨[1, 0, 0, 0, 0, 0, 0]⟩, none⟩
        (.q ⟨1, ⟨[0, 0, 1, 0, 0, 0, 0]⟩, none⟩) = .ok false :=
  ⟨(claim_C4 ⟨1, ⟨[1, 0, 0, 0, 0, 0, 0]⟩, none⟩
      ⟨1, ⟨[0, 0, 1, 0, 0, 0, 0]⟩, none⟩ (by decide) (by decide)
      (by decide)).1,
   (claim_C4 ⟨1, ⟨[1, 0, 0, 0, 0, 0, 0]⟩, none⟩
      ⟨1, ⟨[0, 0, 1, 0, 0, 0, 0]⟩, none⟩ (by decide) (by decide)
      (by decide)).2.2.2.2.2.1⟩

/-! ## Claim C6: Unit display-name algebra -/

theorem dictLookup_cons_pair {α : Type} (p : String × α) (l : List (String × α))
    (k : String) :
    dictLookup (p :: l) k = if p.1 == k then some p.2 else dictLookup l k := by
  by_cases h : (p.1 == k) = true <;> simp [dictLookup, List.find?, h]

theorem dictHasKey_eq_isSome {α : Type} (d : List (String × α)) (k : String) :
    dictHasKey d k = (dictLookup d k).isSome := by
  induction d with
  | nil => rfl
  | cons p l ih =>
    rw [dictHasKey_cons p.1 p.2, dictLookup_cons_pair]
    by_cases h : (p.1 == k) = true
    · simp [h]
    · simp only [Bool.eq_false_iff] at h
      simp [h, ih]

theorem dictLookup_append_pair {α : Type} (d : List (String × α)) (k : String)
    (v : α) (q : String) (hf : dictHasKey d k = false) :
    dictLookup (d ++ [(k, v)]) q = if k == q then some v else dictLookup d q := by
  induction d with
  | nil =>
    rw [List.nil_append, dictLookup_cons_pair (k, v)]
  | cons a rest ih =>
    rw [dictHasKey_cons a.1 a.2, Bool.or_eq_false_iff] at hf
    rw [List.cons_append, dictLookup_cons_pair a, dictLookup_cons_pair a]
    by_cases haq : (a.1 == q) = true
    · by_cases hkq : (k == q) = true
      · exfalso
        have h1 := eq_of_beq haq
        have h2 := eq_of_beq hkq
        have hak : (a.1 == k) = true := by rw [beq_iff_eq, h1, h2]
        rw [hak] at hf
        exact absurd hf.1 (by simp)
      · have hkq2 : (k == q) = false := by simpa using hkq
        simp [haq, hkq2]
    · have haq2 : (a.1 == q) = false := by simpa using haq
      simp only [haq2, Bool.false_eq_true, if_false]
      exact ih hf.2

theorem dictLookup_dictSet {α : Type} (d : List (String × α)) (k : String)
    (v : α) (q : String) :
    dictLookup (dictSet d k v) q =
      if k == q then some v else dictLookup d q := by
  by_cases h : dictHasKey d k = true
  · have h1 : dictSet d k v =
        d.map (fun p => if p.1 == k then (p.1, v) else p) := by
      simp [dictSet, h]
    rw [h1]
    clear h1
    induction d with
    | nil => simp [dictHasKey] at h
    | cons a rest ih =>
      rw [List.map_cons]
      by_cases hak : (a.1 == k) = true
      · rw [if_pos hak]
        rw [dictLookup_cons_pair ⟨a.1, v⟩, dictLookup_cons_pair a]
        have hakeq := eq_of_beq hak
        by_cases haq : (a.1 == q) = true
        · have hkq : (k == q) = true := by
            rw [beq_iff_eq, ← hakeq]
            exact eq_of_beq haq
          simp [haq, hkq]
        · have hkq : (k == q) = false := by
            rw [Bool.eq_false_iff]
            intro hc
            exact haq (by rw [beq_iff_eq, hakeq]; exact eq_of_beq hc)
          by_cases hrest : dictHasKey rest k = true
          · simp only [haq, Bool.false_eq_true, if_false, hkq]
            have hih := ih hrest
            rw [hkq] at hih
            simpa using hih
          · have hlook : dictLookup rest q =
                dictLookup (rest.map
                  (fun p => if p.1 == k then (p.1, v) else p)) q := by
              rw [map_replace_eq_self rest k v
                (not_hasKey_entries rest k (by simpa using hrest))]
            simp [haq, hkq, hlook]
      · rw [if_neg hak]
        rw [dictLookup_cons_pair a, dictLookup_cons_pair a]
        by_cases haq : (a.1 == q) = true
        · have hkq : (k == q) = false := by
            rw [Bool.eq_false_iff]
            intro hc
            exact hak (by
              rw [beq_iff_eq]
              rw [eq_of_beq haq, eq_of_beq hc])
          simp [haq, hkq]
        · have hrest : dictHasKey rest k = true := by
            rw [dictHasKey_cons a.1 a.2] at h
            simpa [hak] using h
          simp only [haq, Bool.false_eq_true, if_false]
          exact ih hrest
  · have hf : dictHasKey d k = false := by simpa using h
    have h1 : dictSet d k v = d ++ [(k, v)] := by simp [dictSet, hf]
    rw [h1]
    exact dictLookup_append_pair d k v q hf

theorem foldl_dictSet_append {α : Type} (d : List (String × α)) :
    ∀ acc : List (String × α), (∀ p ∈ d, dictHasKey acc p.1 = false) →
    dictNodup d →
    d.foldl (fun m p => dictSet m p.1 p.2) acc = acc ++ d := by
  induction d with
  | nil => intro acc _ _; simp
  | cons a rest ih =>
    intro acc hdisj hnd
    simp only [List.foldl_cons]
    have h1 : dictSet acc a.1 a.2 = acc ++ [a] := by
      simp [dictSet, hdisj a (List.mem_cons_self a rest)]
    unfold dictNodup at hnd
    rw [List.map_cons, List.nodup_cons] at hnd
    rw [h1, ih (acc ++ [a]) ?_ hnd.2]
    · simp
    · intro p hp
      have hap : (a.1 == p.1) = false := by
        rw [beq_eq_false_iff_ne]
        intro hc
        exact hnd.1 (hc ▸ List.mem_map_of_mem Prod.fst hp)
      have hacc := hdisj p (List.mem_cons_of_mem a hp)
      simp [dictHasKey, List.any_append] at hacc ⊢
      constructor
      · intro q hq
        exact hacc q hq
      · simpa using hap

theorem dispnameCopy_eq_self (d : List (String × Scalar)) (h : dictNodup d) :
    dispnameCopy d = d := by
  unfold dispnameCopy
  rw [foldl_dictSet_append d [] (fun p _ => rfl) h]
  simp

theorem dictLookup_rest_none {α : Type} (a : String × α)
    (rest : List (String × α)) (h : a.1 ∉ List.map Prod.fst rest) :
    dictLookup rest a.1 = none := by
  rw [← Option.not_isSome_iff_eq_none, ← dictHasKey_eq_isSome]
  intro hc
  apply h
  unfold dictHasKey at hc
  rw [List.any_eq_true] at hc
  obtain ⟨p, hp, hpk⟩ := hc
  exact eq_of_beq hpk ▸ List.mem_map_of_mem Prod.fst hp

/-- The combined-lookup description of the `Unit.__mul__` merge loop. -/
theorem dispnameMergeAdd_lookup (self other : List (String × Scalar))
    (hself : dictNodup self) (hother : dictNodup other) (k : String) :
    dictLookup (dispnameMergeAdd self other) k =
      match dictLookup self k, dictLookup other k with
      | none, none => none
      | some x, none => some x
      | none, some y => some y
      | some x, some y => some (x + y) := by
  unfold dispnameMergeAdd
  rw [dispnameCopy_eq_self self hself]
  clear hself
  induction other generalizing self with
  | nil =>
    simp only [List.foldl_nil, dictLookup]
    cases hl : (self.find? fun p => p.1 == k).map (fun p => p.2) <;> rfl
  | cons a rest ih =>
    simp only [List.foldl_cons]
    unfold dictNodup at hother
    rw [List.map_cons, List.nodup_cons] at hother
    have hstep : ∀ q, dictLookup
        (if dictHasKey self a.1 then
          dictSet self a.1 ((dictLookup self a.1).getD 0 + a.2)
        else dictSet self a.1 a.2) q =
        if a.1 == q then some ((dictLookup self a.1).getD 0 + a.2)
        else dictLookup self q := by
      intro q
      by_cases hk : dictHasKey self a.1 = true
      · rw [if_pos hk, dictLookup_dictSet]
      · have hk2 : dictHasKey self a.1 = false := by simpa using hk
        rw [if_neg hk, dictLookup_dictSet]
        rw [dictHasKey_eq_isSome] at hk2
        cases hl : dictLookup self a.1 with
        | some w => rw [hl] at hk2; simp at hk2
        | none => simp
    rw [ih _ hother.2]
    rw [hstep k, dictLookup_cons_pair a]
    by_cases hak : (a.1 == k) = true
    · have hakeq : a.1 = k := eq_of_beq hak
      subst hakeq
      have hrest : dictLookup rest a.1 = none :=
        dictLookup_rest_none a rest hother.1
      rw [hrest]
      simp only [beq_self_eq_true, if_true]
      cases hl : dictLookup self a.1 <;> simp [hl]
    · have hak2 : (a.1 == k) = false := by simpa using hak
      rw [hak2]
      simp only [Bool.false_eq_true, if_false]

/-- The combined-lookup description of the `Unit.__div__` merge loop. -/
theorem dispnameMergeSub_lookup (self other : List (String × Scalar))
    (hself : dictNodup self) (hother : dictNodup other) (k : String) :
    dictLookup (dispnameMergeSub self other) k =
      match dictLookup self k, dictLookup other k with
      | none, none => none
      | some x, none => some x
      | none, some y => some (-y)
      | some x, some y => some (x - y) := by
  unfold dispnameMergeSub
  rw [dispnameCopy_eq_self self hself]
  clear hself
  induction other generalizing self with
  | nil =>
    simp only [List.foldl_nil, dictLookup]
    cases hl : (self.find? fun p => p.1 == k).map (fun p => p.2) <;> rfl
  | cons a rest ih =>
    simp only [List.foldl_cons]
    unfold dictNodup at hother
    rw [List.map_cons, List.nodup_cons] at hother
    have hstep : ∀ q, dictLookup
        (if dictHasKey self a.1 then
          dictSet self a.1 ((dictLookup self a.1).getD 0 - a.2)
        else dictSet self a.1 (-a.2)) q =
        if a.1 == q then some ((dictLookup self a.1).getD 0 - a.2)
        else dictLookup self q := by
      intro q
      by_cases hk : dictHasKey self a.1 = true
      · rw [if_pos hk, dictLookup_dictSet]
      · have hk2 : dictHasKey self a.1 = false := by simpa using hk
        rw [if_neg hk, dictLookup_dictSet]
        rw [dictHasKey_eq_isSome] at hk2
        cases hl : dictLookup self a.1 with
        | some w => rw [hl] at hk2; simp at hk2
        | none => simp [zero_sub]
    rw [ih _ hother.2]
    rw [hstep k, dictLookup_cons_pair a]
    by_cases hak : (a.1 == k) = true
    · have hakeq : a.1 = k := eq_of_beq hak
      subst hakeq
      have hrest : dictLookup rest a.1 = none :=
        dictLookup_rest_none a rest hother.1
      rw [hrest]
      simp only [beq_self_eq_true, if_true]
      cases hl : dictLookup self a.1 <;> simp [hl, zero_sub]
    · have hak2 : (a.1 == k) = false := by simpa using hak
      rw [hak2]
      simp only [Bool.false_eq_true, if_false]

/-- Lookup through the exponent-scaling map of `Unit.__pow__`. -/
theorem dispnamePow_lookup (d : List (String × Scalar)) (n : Scalar)
    (k : String) :
    dictLookup (d.map (fun p => (p.1, p.2 * n))) k =
      (dictLookup d k).map (fun x => x * n) := by
  induction d with
  | nil => rfl
  | cons a rest ih =>
    rw [List.map_cons, dictLookup_cons_pair a,
      dictLookup_cons_pair (a.1, a.2 * n)]
    by_cases hak : (a.1 == k) = true
    · simp [hak]
    · have hak' : (a.1 == k) = false := by simpa using hak
      simp only [hak', Bool.false_eq_true, if_false]
      exact ih

/-- C6 counterexample: `metre ** 2` has `iscompound = False` — the fresh
Unit built by `Unit.__pow__` keeps the flag set by `Unit.__init__`, while
`Unit.__mul__`/`__div__` set it to True.  The claim asserts the flag is
true for all three operations. -/
theorem claim_C6_counterexample :
    (quantMulQ metre second).sub.map UnitInfo.iscompound = some true ∧
    (quantDivQ metre second).sub.map UnitInfo.iscompound = some true ∧
    (quantPowScalar metre 2).sub.map UnitInfo.iscompound = some false :=
  ⟨rfl, rfl, rfl⟩

/-- C6 (amended): for named Units, `u*v` and `u/v` produce Units whose
display-name dict is the symbol-wise exponent sum (resp. difference) of
the operands' dicts with `iscompound = True`; `u**n` produces a Unit whose
display-name exponents are scaled by `n` but whose `iscompound` flag is
False (`Unit.__pow__` never sets it). -/
theorem claim_C6 :
    ∀ (a b : Quantity) (ia ib : UnitInfo), a.sub = some ia → b.sub = some ib →
    dictNodup ia.dispname → dictNodup ib.dispname →
    (∃ i, (quantMulQ a b).sub = some i ∧ i.iscompound = true ∧
      ∀ k, dictLookup i.dispname k =
        match dictLookup ia.dispname k, dictLookup ib.dispname k with
        | none, none => none
        | some x, none => some x
        | none, some y => some y
        | some x, some y => some (x + y)) ∧
    (∃ i, (quantDivQ a b).sub = some i ∧ i.iscompound = true ∧
      ∀ k, dictLookup i.dispname k =
        match dictLookup ia.dispname k, dictLookup ib.dispname k with
        | none, none => none
        | some x, none => some x
        | none, some y => some (-y)
        | some x, some y => some (x - y)) ∧
    (∀ n : Scalar, ∃ i, (quantPowScalar a n).sub = some i ∧
      i.iscompound = false ∧
      ∀ k, dictLookup i.dispname k =
        (dictLookup ia.dispname k).map (fun x => x * n)) := by
  intro a b ia ib hA hB hna hnb
  refine ⟨?_, ?_, ?_⟩
  · refine ⟨⟨dispnameMergeAdd ia.dispname ib.dispname,
      ia.name ++ ib.name, true⟩, ?_, rfl, ?_⟩
    · simp only [quantMulQ, hA, hB]
    · intro k
      exact dispnameMergeAdd_lookup ia.dispname ib.dispname hna hnb k
  · refine ⟨⟨dispnameMergeSub ia.dispname ib.dispname,
      ia.name ++ "inv_" ++ ib.name ++ "_endinv", true⟩, ?_, rfl, ?_⟩
    · simp only [quantDivQ, hA, hB]
    · intro k
      exact dispnameMergeSub_lookup ia.dispname ib.dispname hna hnb k
  · intro n
    refine ⟨⟨ia.dispname.map (fun p => (p.1, p.2 * n)),
      ia.name ++ "pow_" ++ ratStr n ++ "_endpow", false⟩, ?_, rfl, ?_⟩
    · simp only [quantPowScalar, hA]
    · intro k
      exact dispnamePow_lookup ia.dispname n k

/-- C6 witness: the amended statement at `metre` and `second`. -/
theorem claim_C6_witness :
    ((quantMulQ metre second).sub.map UnitInfo.iscompound = some true ∧
     (quantDivQ metre second).sub.map UnitInfo.iscompound = some true ∧
     (quantPowScalar metre 2).sub.map UnitInfo.iscompound = some false) ∧
    (quantMulQ metre second).sub.map
      (fun i => dictLookup i.dispname "m") = some (some 1) := by
  obtain ⟨⟨i1, h1, hc1, hk1⟩, ⟨i2, h2, hc2, hk2⟩, hpow⟩ :=
    claim_C6 metre second ⟨[("m", 1)], "metre", false⟩
      ⟨[("s", 1)], "second", false⟩ rfl rfl
      (by unfold dictNodup; decide) (by unfold dictNodup; decide)
  obtain ⟨i3, h3, hc3, hk3⟩ := hpow 2
  refine ⟨⟨?_, ?_, ?_⟩, ?_⟩
  · rw [h1]
    simp [hc1]
  · rw [h2]
    simp [hc2]
  · rw [h3]
    simp [hc3]
  · rw [h1]
    have hm := hk1 "m"
    have hmap : (some i1).map (fun i => dictLookup i.dispname "m") =
        some (dictLookup i1.dispname "m") := rfl
    rw [hmap, hm]
    rfl

/-! ## Claim C7: registry lookup -/

theorem find?_eq_head?_filter {α : Type} (l : List α) (p : α → Bool) :
    (l.filter p).head? = l.find? p := by
  induction l with
  | nil => rfl
  | cons a rest ih =>
    by_cases h : p a = true <;> simp [List.filter_cons, List.find?, h, ih]

/-- C7: `UnitRegistry.__getitem__(x)` filters the registered units to those
sharing x's dimensions, errors when none match, returns the first whose
ratio magnitude `abs(x/o)` lies in [0.1, 100) when one exists, and the
first dimension match otherwise. -/
theorem claim_C7 :
    ∀ (r : UnitRegistry) (x : Quantity),
    urGetItem r x =
      match r.objs.find? (fun o =>
              (decide ((1 : Scalar)/10 ≤ |x.value / o.value|) &&
               decide (|x.value / o.value| < 100)) && haveSameDimensions o x),
            r.objs.find? (fun o => haveSameDimensions o x) with
      | _, none => .error "Unit not found in registry."
      | some u, some _ => .ok u
      | none, some _ => .ok ((r.objs.filter
          (fun o => haveSameDimensions o x)).headD (quantityMk 1)) := by
  intro r x
  unfold urGetItem
  have hcomb : (r.objs.filter (fun o => haveSameDimensions o x)).filter
      (fun o => decide ((1 : Scalar)/10 ≤ |x.value / o.value|) &&
                decide (|x.value / o.value| < 100)) =
      r.objs.filter (fun o =>
        (decide ((1 : Scalar)/10 ≤ |x.value / o.value|) &&
         decide (|x.value / o.value| < 100)) && haveSameDimensions o x) :=
    List.filter_filter _ _
  cases hm : r.objs.filter (fun o => haveSameDimensions o x) with
  | nil =>
    have hfd : r.objs.find? (fun o => haveSameDimensions o x) = none := by
      rw [← find?_eq_head?_filter, hm]
      rfl
    have hfc : r.objs.find? (fun o =>
        (decide ((1 : Scalar)/10 ≤ |x.value / o.value|) &&
         decide (|x.value / o.value| < 100)) && haveSameDimensions o x) =
        none := by
      rw [← find?_eq_head?_filter, ← hcomb, hm]
      rfl
    rw [hfd, hfc]
  | cons m0 ms =>
    have hfd : r.objs.find? (fun o => haveSameDimensions o x) = some m0 := by
      rw [← find?_eq_head?_filter, hm]
      rfl
    rw [hfd]
    rw [hm] at hcomb
    cases hf2 : (m0 :: ms).filter
        (fun o => decide ((1 : Scalar)/10 ≤ |x.value / o.value|) &&
                  decide (|x.value / o.value| < 100)) with
    | nil =>
      have hfc : r.objs.find? (fun o =>
          (decide ((1 : Scalar)/10 ≤ |x.value / o.value|) &&
           decide (|x.value / o.value| < 100)) && haveSameDimensions o x) =
          none := by
        rw [← find?_eq_head?_filter, ← hcomb, hf2]
        rfl
      rw [hfc]
      simp only [hf2]
      rfl
    | cons u us =>
      have hfc : r.objs.find? (fun o =>
          (decide ((1 : Scalar)/10 ≤ |x.value / o.value|) &&
           decide (|x.value / o.value| < 100)) && haveSameDimensions o x) =
          some u := by
        rw [← find?_eq_head?_filter, ← hcomb, hf2]
        rfl
      rw [hfc]
      simp only [hf2]

/-! ## Claim C10: in_best_unit never fails -/

/-- A successful registry lookup returns a unit sharing x's dimensions. -/
theorem urGetItem_dim (r : UnitRegistry) (x u : Quantity)
    (h : urGetItem r x = .ok u) : dimBeq u.dim x.dim = true := by
  unfold urGetItem at h
  split at h
  · exact absurd h (by simp)
  · rename_i m0 ms heq
    split at h
    · rename_i u2 us heq2
      have hmem : u2 ∈ (m0 :: ms).filter
          (fun o => decide ((1 : Scalar)/10 ≤ |x.value / o.value|) &&
                    decide (|x.value / o.value| < 100)) := by
        rw [heq2]
        exact List.mem_cons_self u2 us
      have hmem2 : u2 ∈ m0 :: ms := List.mem_of_mem_filter hmem
      have hmem3 : u2 ∈ r.objs.filter (fun o => haveSameDimensions o x) := by
        rw [heq]
        exact hmem2
      have hpred := List.of_mem_filter hmem3
      have hu : u = u2 := by
        injection h with h1
        exact h1.symm
      rw [hu]
      exact hpred
    · have hmem : m0 ∈ r.objs.filter (fun o => haveSameDimensions o x) := by
        rw [heq]
        exact List.mem_cons_self m0 ms
      have hpred := List.of_mem_filter hmem
      have hu : u = m0 := by
        injection h with h1
        exact h1.symm
      rw [hu]
      exact hpred

/-- C10: with no explicit registries, the best-unit display never fails:
a dimensionless quantity displays against the bare `Quantity(1)`, a
quantity whose dimension no registered unit shares falls back to the
synthetic `Quantity.with_dimensions(1, x.dim)`, and in every case the
`in_unit` dimension check passes. -/
theorem claim_C10 :
    ∀ (std usr add : UnitRegistry) (x : Quantity), x.dim.dims.length = 7 →
    (dimIsDimensionless x.dim = true →
      getBestUnitDefault std usr add x = quantityMk 1) ∧
    (dimIsDimensionless x.dim = false →
      (∀ u ∈ std.objs ++ usr.objs ++ add.objs, dimBeq u.dim x.dim = false) →
      getBestUnitDefault std usr add x = withDimensions 1 x.dim) ∧
    (∃ s, inBestUnit std usr add x = .ok s) := by
  intro std usr add x hx
  refine ⟨?_, ?_, ?_⟩
  · intro hdl
    have hxd : x.dim = dim0 := (dimIsDimensionless_iff x.dim hx).mp hdl
    unfold getBestUnitDefault getBestUnitRegs
    rw [hxd, if_pos (dimBeq_refl dim0 (by decide))]
  · intro hdl hnomatch
    have hne : dimBeq x.dim dim0 = false := by
      rw [Bool.eq_false_iff]
      intro hc
      have := (dimBeq_iff x.dim dim0 hx (by decide)).mp hc
      rw [(dimIsDimensionless_iff x.dim hx).mpr this] at hdl
      simp at hdl
    have herr : ∀ r : UnitRegistry, (∀ u ∈ r.objs, dimBeq u.dim x.dim = false) →
        (urGetItem r x).toOption = none := by
      intro r hr
      unfold urGetItem
      have hnil : r.objs.filter (fun o => haveSameDimensions o x) = [] := by
        apply List.filter_eq_nil_iff.mpr
        intro a ha
        unfold haveSameDimensions
        simp [hr a ha]
      rw [hnil]
      rfl
    unfold getBestUnitDefault getBestUnitRegs
    rw [if_neg (by simp [hne])]
    have hfs : ([std, usr, add].findSome?
        (fun r => (urGetItem r x).toOption)) = none := by
      have h1 := herr std (fun u hu =>
        hnomatch u (by simp [hu]))
      have h2 := herr usr (fun u hu =>
        hnomatch u (by simp [hu]))
      have h3 := herr add (fun u hu =>
        hnomatch u (by simp [hu]))
      simp [List.findSome?, h1, h2, h3]
    rw [hfs]
  · have hbeq : dimBeq x.dim (getBestUnitDefault std usr add x).dim = true := by
      unfold getBestUnitDefault getBestUnitRegs
      by_cases hd0 : dimBeq x.dim dim0 = true
      · rw [if_pos hd0]
        exact hd0
      · rw [if_neg hd0]
        cases hfs : ([std, usr, add].findSome?
            (fun r => (urGetItem r x).toOption)) with
        | some u =>
          obtain ⟨r, _, hr⟩ := List.exists_of_findSome?_eq_some hfs
          have hok : urGetItem r x = .ok u := by
            cases hcase : urGetItem r x with
            | ok w => rw [hcase] at hr; simp [Except.toOption] at hr; rw [hr]
            | error e => rw [hcase] at hr; simp [Except.toOption] at hr
          rw [dimBeq_symm]
          exact urGetItem_dim r x u hok
        | none =>
          exact dimBeq_refl x.dim hx
    unfold inBestUnit inUnit
    rw [hbeq]
    exact ⟨_, rfl⟩

/-- C10 witness: a length-dimensioned quantity against empty registries
(no unit matches, so the synthetic fallback is used and display succeeds),
plus the dimensionless branch. -/
theorem claim_C10_witness :
    (getBestUnitDefault ⟨[]⟩ ⟨[]⟩ ⟨[]⟩ ⟨5, ⟨[1, 0, 0, 0, 0, 0, 0]⟩, none⟩ =
      withDimensions 1 ⟨[1, 0, 0, 0, 0, 0, 0]⟩) ∧
    (getBestUnitDefault ⟨[]⟩ ⟨[]⟩ ⟨[]⟩ ⟨5, dim0, none⟩ = quantityMk 1) ∧
    (∃ s, inBestUnit ⟨[]⟩ ⟨[]⟩ ⟨[]⟩ ⟨5, ⟨[1, 0, 0, 0, 0, 0, 0]⟩, none⟩ =
      .ok s) :=
  ⟨(claim_C10 ⟨[]⟩ ⟨[]⟩ ⟨[]⟩ ⟨5, ⟨[1, 0, 0, 0, 0, 0, 0]⟩, none⟩
      (by decide)).2.1 (by decide) (by intro u hu; simp at hu),
   (claim_C10 ⟨[]⟩ ⟨[]⟩ ⟨[]⟩ ⟨5, dim0, none⟩ (by decide)).1 (by decide),
   (claim_C10 ⟨[]⟩ ⟨[]⟩ ⟨[]⟩ ⟨5, ⟨[1, 0, 0, 0, 0, 0, 0]⟩, none⟩
      (by decide)).2.2⟩

/-! ## Claim C9: the back-reference leaks nothing into the caller -/

/-- Frame property of `parse_query`: the returned history has the same
entry list as the input, and its variable map is either unchanged or the
input map with a single binding written by this query level (the `=`
branch).  In particular nothing a nested `#n` parse does is visible here:
the back-reference runs `parseTop` on `histCopy h` and its resulting
history is discarded. -/
theorem parseQuery_frame (cfg : PConfig) (f : Nat) (st : PState)
    (h : ParseHistory) :
    ((parseQuery cfg f st h).2).history = h.history ∧
    (((parseQuery cfg f st h).2).defined_variables = h.defined_variables ∨
     ∃ nm v, ((parseQuery cfg f st h).2).defined_variables =
       dictSet h.defined_variables nm v) := by
  match f with
  | 0 => exact ⟨rfl, Or.inl rfl⟩
  | f + 1 =>
    unfold parseQuery
    repeat'
      first
        | exact ⟨rfl, Or.inl rfl⟩
        | exact ⟨rfl, Or.inr ⟨_, _, rfl⟩⟩
        | split
        | dsimp only

/-- C9: a whole `parse` call changes the caller's session history only at
its own level: the entry list of the resulting history is exactly that of
`histAdd` applied to the stripped query string (one new entry, the query
itself), and the variable map is the caller's map with at most one binding
written by this query's own `=` operator.  Since this holds for every
input -- including one containing a back-reference `#n`, whose nested
parse runs on `histCopy` of the history and whose resulting history is
dropped -- no entry or binding made inside a nested parse persists into
the caller's ParseHistory. -/
theorem claim_C9 :
    ∀ (cfg : PConfig) (fuel : Nat) (s : String) (h : ParseHistory),
    ((parseTop cfg fuel s h).2).history = (histAdd s.trim h).history ∧
    (((parseTop cfg fuel s h).2).defined_variables = h.defined_variables ∨
     ∃ nm v, ((parseTop cfg fuel s h).2).defined_variables =
       dictSet h.defined_variables nm v) := by
  intro cfg fuel s h
  match fuel with
  | 0 => exact ⟨rfl, Or.inl rfl⟩
  | f + 1 =>
    have hfr := parseQuery_frame cfg f
      ⟨(((imperialFix s.trim).replace " in " " % ").replace " per " "/").toList,
       0, "", []⟩ (histAdd s.trim h)
    exact ⟨hfr.1, hfr.2⟩

end DimPy
